import Mathlib

/-!
# OpenDiablo2: loading the AutoMagic records

A shallow embedding of `d2common/d2data/d2datadict/automagic.go`.

* `d2datadict.AutoMagicRecord`, `d2datadict.charCodeMap`, `d2datadict.readRecord`,
  `d2datadict.forNext` and `d2datadict.LoadAutoMagicRecords` are translated from the Go
  source, statement by statement.
* The data dictionary of package `d2common` (`LoadDataDictionary`, `Next`, `String`,
  `Number`, `Err`) and the enumeration `d2enum.Hero` are used by that source but their
  declarations are not part of it; they are modelled from the specification and every such
  definition says so in its doc comment.

Go's global variable `AutoMagic` and the output of package `log` are made explicit as the
state `d2datadict.Globals`; a Go panic is made explicit as the `panicked` component of
`d2datadict.Outcome`.
-/

set_option autoImplicit false

deriving instance DecidableEq for Except

/-! ## Package d2enum -/

namespace d2enum

/-- Modelled from the spec: the enumerated hero identifier `d2enum.Hero`, whose declaration
is missing from the sources. The spec (section 4.4) names it as the target of the class-code
lookup and requires a defined "none/unspecified" value; that value is the first constant,
so it is the zero value of the Go type. -/
inductive Hero where
  | HeroNone
  | HeroBarbarian
  | HeroNecromancer
  | HeroPaladin
  | HeroAssassin
  | HeroSorceress
  | HeroAmazon
  | HeroDruid
  deriving DecidableEq, Repr

/-- Modelled from the spec: the zero value of `d2enum.Hero`, which is what indexing a Go map
with an absent key returns; the spec calls it the "none/unspecified" value. -/
def Hero.zero : Hero := Hero.HeroNone

end d2enum

/-! ## Package d2common: the data dictionary -/

namespace d2common

/-- Modelled from the spec: the error kinds of section 7. `MissingColumn` carries the
requested column name, `DecodeError` the column name and the offending cell. -/
inductive DictError where
  | StructuralError
  | MissingColumn (column : String)
  | DecodeError (column : String) (cell : String)
  | StateError
  deriving DecidableEq, Repr

/-- Modelled from the spec: the Table of section 3, a header row and the data rows. -/
structure Table where
  header : List String
  rows : List (List String)
  deriving DecidableEq, Repr

/-- Modelled from the spec: splitting on a fixed single-character separator (section 4.1).
Nothing is trimmed; `n` separators give `n + 1` pieces. -/
def splitOn (sep : Char) : List Char → List (List Char)
  | [] => [[]]
  | c :: cs =>
    if c = sep then [] :: splitOn sep cs
    else
      match splitOn sep cs with
      | [] => [[c]]
      | w :: ws => (c :: w) :: ws

/-- Modelled from the spec: "a trailing empty line is ignored" (section 4.1). -/
def dropTrailingEmpty : List (List Char) → List (List Char)
  | [] => []
  | [l] => if l = [] then [] else [l]
  | l :: m :: ls => l :: dropTrailingEmpty (m :: ls)

/-- Modelled from the spec: the lines of the raw input (section 4.1). -/
def lines (file : String) : List (List Char) :=
  dropTrailingEmpty (splitOn '\n' file.data)

/-- Modelled from the spec: the columns of one line, split on tab (section 4.1). -/
def columns (line : List Char) : List String :=
  (splitOn '\t' line).map String.mk

/-- Modelled from the spec: the Table Tokenizer of section 4.1. It fails with a
`StructuralError` when the input has no header row, and (Table invariant of section 3,
error kinds of section 7) when a data row's column count disagrees with the header's. -/
def tokenize (file : String) : Except DictError Table :=
  match lines file with
  | [] => .error .StructuralError
  | h :: rs =>
    if (rs.map columns).all (fun r => r.length == (columns h).length) then
      .ok { header := columns h, rows := rs.map columns }
    else .error .StructuralError

/-- Modelled from the spec: the Column Index of section 4.2, a mapping from case-normalized
column name to zero-based position. -/
abbrev ColumnIndex := List (String × Nat)

/-- Modelled from the spec: case normalization of a column name (section 4.2). -/
def normalize (name : String) : String :=
  ⟨name.data.map Char.toLower⟩

/-- Modelled from the spec: the header entries from position `pos` on, each name
normalized. -/
def indexFrom (pos : Nat) : List String → ColumnIndex
  | [] => []
  | name :: rest => (normalize name, pos) :: indexFrom (pos + 1) rest

/-- Modelled from the spec: building the Column Index once from the header (section 4.2).
The entries are stored latest first, so that of duplicate names the last occurrence wins. -/
def ColumnIndex.build (header : List String) : ColumnIndex :=
  (indexFrom 0 header).reverse

/-- Modelled from the spec: case-insensitive lookup of a column name (section 4.2); `none`
is the MissingColumn condition. -/
def ColumnIndex.position (idx : ColumnIndex) (name : String) : Option Nat :=
  idx.lookup (normalize name)

/-- Modelled from the spec: the Typed Cursor of sections 3 and 4.3, which the Go source
calls `DataDictionary`: the Column Index, the underlying data rows, the current row index
(counting the header as row 0, so `pos = 0` is BeforeFirstRow, `1 ≤ pos ≤ rows.length` is
PositionedOnRow and a larger `pos` is Exhausted) and the error slot `Err`. -/
structure DataDictionary where
  lookup : ColumnIndex
  rows : List (List String)
  pos : Nat
  Err : Option DictError
  deriving DecidableEq, Repr

/-- Modelled from the spec: `LoadDataDictionary`, missing from the sources: Tokenizer, then
Column Index, then a Cursor in the BeforeFirstRow state with an empty error slot
(section 2, control flow). A tokenizer failure is the failure of the call. -/
def LoadDataDictionary (file : String) : Except DictError DataDictionary :=
  match tokenize file with
  | .error e => .error e
  | .ok t => .ok { lookup := ColumnIndex.build t.header, rows := t.rows, pos := 0, Err := none }

/-- Modelled from the spec: the row the cursor is positioned on, if any (section 4.3). -/
def DataDictionary.record (d : DataDictionary) : Option (List String) :=
  if d.pos = 0 then none else d.rows.get? (d.pos - 1)

/-- Modelled from the spec: `Next` (the spec's Advance, section 4.3), missing from the
sources: moves to the next data row and answers `true`, or answers `false` and enters the
terminal state when no rows remain. The error slot plays no part. -/
def DataDictionary.Next (d : DataDictionary) : Bool × DataDictionary :=
  if d.pos < d.rows.length then (true, { d with pos := d.pos + 1 })
  else (false, { d with pos := d.rows.length + 1 })

/-- Modelled from the spec: latching (section 4.3, deferred-error policy): the slot keeps
the first error. -/
def DataDictionary.latch (d : DataDictionary) (e : DictError) : DataDictionary :=
  match d.Err with
  | some _ => d
  | none => { d with Err := some e }

/-- Modelled from the spec: the raw cell read shared by both typed accessors (section 4.3).
A read outside PositionedOnRow latches a `StateError` and gives the zero value (the spec's
recommended policy); an unknown column name latches `MissingColumn` and gives the empty
string, without raising; a position beyond the row's end, which the Table invariant
excludes, latches a `StructuralError`. -/
def DataDictionary.cell (d : DataDictionary) (field : String) : String × DataDictionary :=
  match d.record with
  | none => ("", d.latch .StateError)
  | some row =>
    match d.lookup.position field with
    | none => ("", d.latch (.MissingColumn field))
    | some p =>
      match row.get? p with
      | none => ("", d.latch .StructuralError)
      | some c => (c, d)

/-- Modelled from the spec: value of a run of decimal digits, `none` on any other
character. -/
def digitsValue : List Char → Nat → Option Nat
  | [], acc => some acc
  | c :: cs, acc =>
    if c.isDigit then digitsValue cs (10 * acc + (c.toNat - 48)) else none

/-- Modelled from the spec: the numeral a non-empty cell spells "as a base-10 signed
integer" (section 4.3): an optional sign followed by at least one digit. -/
def signedValue (cell : String) : Option Int :=
  match cell.data with
  | [] => none
  | ['-'] => none
  | ['+'] => none
  | '-' :: cs => (digitsValue cs 0).map (fun n => - (n : Int))
  | '+' :: cs => (digitsValue cs 0).map (fun n => (n : Int))
  | cs => (digitsValue cs 0).map (fun n => (n : Int))

/-- Modelled from the spec: the least value of the requested scalar type (section 7,
DecodeError). The source stores the result of `Number` in fields of Go type `int`, taken
here 64 bits wide. -/
def minInt : Int := -9223372036854775808

/-- Modelled from the spec: the greatest value of the requested scalar type, Go's `int`
taken 64 bits wide. -/
def maxInt : Int := 9223372036854775807

/-- Modelled from the spec: the integer can be held by the requested scalar type. -/
def fitsInt (n : Int) : Bool :=
  decide (minInt ≤ n) && decide (n ≤ maxInt)

/-- Modelled from the spec: parsing a non-empty cell as the requested scalar type
(sections 4.3 and 7): the cell must spell a base-10 signed integer and the integer must fit
Go's `int`; otherwise the cell "could not be parsed as the requested scalar type". -/
def parseInt (cell : String) : Option Int :=
  match signedValue cell with
  | none => none
  | some n => if fitsInt n then some n else none

/-- Modelled from the spec: `Number` (the spec's ReadInteger, section 4.3), missing from the
sources: an empty cell is 0, a cell spelling an integer that fits Go's `int` is that
integer, and any other cell latches a `DecodeError` and gives the zero value. The result is
therefore always a value a Go `int` can hold. -/
def DataDictionary.Number (d : DataDictionary) (field : String) : Int × DataDictionary :=
  match d.cell field with
  | (c, d1) =>
    if c = "" then (0, d1)
    else
      match parseInt c with
      | some n => (n, d1)
      | none => (0, d1.latch (.DecodeError field c))

/-- Modelled from the spec: `String` (the spec's ReadString, section 4.3), missing from the
sources: the raw cell of the current row. -/
def DataDictionary.String (d : DataDictionary) (field : String) : String × DataDictionary :=
  d.cell field

end d2common

/-! ## Package d2datadict: automagic.go -/

namespace d2datadict

open d2common d2enum

/-- A Go array `[n]T`: exactly `n` elements. -/
abbrev GoArray (n : Nat) (α : Type) := { l : List α // l.length = n }

/-- Indexing a Go array, `a[i]` with `i < n`. -/
def GoArray.at {n : Nat} {α : Type} (a : GoArray n α) (i : Fin n) : α :=
  a.val.get ⟨i.val, by rw [a.property]; exact i.isLt⟩

/-- The Go struct `AutoMagicRecord` (automagic.go, lines 12 to 123), fields in declaration
order. A field of Go type `int` is an `Int`; the only integers the source stores in these
fields are results of `Number`, which lie between `minInt` and `maxInt`, and the source does
no arithmetic on them. -/
structure AutoMagicRecord where
  IncludeItemCodes : GoArray 7 String
  ModCode : GoArray 3 String
  ExcludeItemCodes : GoArray 3 String
  ModParam : GoArray 3 Int
  ModMin : GoArray 3 Int
  ModMax : GoArray 3 Int
  Name : String
  Version : Int
  MinSpawnLevel : Int
  MaxSpawnLevel : Int
  LevelRequirement : Int
  Class : Hero
  ClassLevelRequirement : Int
  Frequency : Int
  Group : Int
  PaletteTransform : Int
  CostDivide : Int
  CostMultiply : Int
  CostAdd : Int
  Spawnable : Bool
  SpawnOnRare : Bool
  Transform : Bool
  deriving DecidableEq, Repr

/-- The map literal `charCodeMap` of lines 132 to 140. -/
def charCodeMap : List (String × Hero) :=
  [ ("ama", Hero.HeroAmazon),
    ("ass", Hero.HeroAssassin),
    ("bar", Hero.HeroBarbarian),
    ("dru", Hero.HeroDruid),
    ("nec", Hero.HeroNecromancer),
    ("pal", Hero.HeroPaladin),
    ("sor", Hero.HeroSorceress) ]

/-- The Go index expression `m[key]` on a map: the stored value, or the zero value of the
element type when the key is absent. -/
def mapIndex (m : List (String × Hero)) (key : String) : Hero :=
  (m.lookup key).getD Hero.zero

/-- The composite literal of lines 145 to 196. Go evaluates the calls on `d` in lexical
left-to-right order; each `let` is one call, made on the dictionary the previous call left
behind (the second component of its result), and names the call's value and that
dictionary. -/
def readRecord (d : DataDictionary) : AutoMagicRecord × DataDictionary :=
  let name := d.String "Name"
  let version := name.2.Number "version"
  let spawnable := version.2.Number "spawnable"
  let rare := spawnable.2.Number "rare"
  let level := rare.2.Number "level"
  let maxlevel := level.2.Number "maxlevel"
  let levelreq := maxlevel.2.Number "levelreq"
  let cls := levelreq.2.String "class"
  let classlevelreq := cls.2.Number "classlevelreq"
  let frequency := classlevelreq.2.Number "frequency"
  let group := frequency.2.Number "group"
  let mod1code := group.2.String "mod1code"
  let mod2code := mod1code.2.String "mod2code"
  let mod3code := mod2code.2.String "mod3code"
  let mod1param := mod3code.2.Number "mod1param"
  let mod2param := mod1param.2.Number "mod2param"
  let mod3param := mod2param.2.Number "mod3param"
  let mod1min := mod3param.2.Number "mod1min"
  let mod2min := mod1min.2.Number "mod2min"
  let mod3min := mod2min.2.Number "mod3min"
  let mod1max := mod3min.2.Number "mod1max"
  let mod2max := mod1max.2.Number "mod2max"
  let mod3max := mod2max.2.Number "mod3max"
  let transform := mod3max.2.Number "transform"
  let transformcolor := transform.2.Number "transformcolor"
  let itype1 := transformcolor.2.String "itype1"
  let itype2 := itype1.2.String "itype2"
  let itype3 := itype2.2.String "itype3"
  let itype4 := itype3.2.String "itype4"
  let itype5 := itype4.2.String "itype5"
  let itype6 := itype5.2.String "itype6"
  let itype7 := itype6.2.String "itype7"
  let etype1 := itype7.2.String "etype1"
  let etype2 := etype1.2.String "etype2"
  let etype3 := etype2.2.String "etype3"
  let divide := etype3.2.Number "divide"
  let multiply := divide.2.Number "multiply"
  let add := multiply.2.Number "add"
  ({ Name := name.1,
     Version := version.1,
     Spawnable := decide (spawnable.1 > 0),
     SpawnOnRare := decide (rare.1 > 0),
     MinSpawnLevel := level.1,
     MaxSpawnLevel := maxlevel.1,
     LevelRequirement := levelreq.1,
     Class := mapIndex charCodeMap cls.1,
     ClassLevelRequirement := classlevelreq.1,
     Frequency := frequency.1,
     Group := group.1,
     ModCode := ⟨[mod1code.1, mod2code.1, mod3code.1], rfl⟩,
     ModParam := ⟨[mod1param.1, mod2param.1, mod3param.1], rfl⟩,
     ModMin := ⟨[mod1min.1, mod2min.1, mod3min.1], rfl⟩,
     ModMax := ⟨[mod1max.1, mod2max.1, mod3max.1], rfl⟩,
     Transform := decide (transform.1 > 0),
     PaletteTransform := transformcolor.1,
     IncludeItemCodes :=
       ⟨[itype1.1, itype2.1, itype3.1, itype4.1, itype5.1, itype6.1, itype7.1], rfl⟩,
     ExcludeItemCodes := ⟨[etype1.1, etype2.1, etype3.1], rfl⟩,
     CostDivide := divide.1,
     CostMultiply := multiply.1,
     CostAdd := add.1 }, add.2)

/-- The state the function acts on besides its argument: the package variable `AutoMagic`
(line 126) and the calls made to `log.Printf`, each as its format string and argument. -/
structure Globals where
  AutoMagic : List AutoMagicRecord
  logged : List (String × Nat)
  deriving DecidableEq, Repr

/-- How a call ends: the state it leaves, and the value it panicked with, if it did. -/
structure Outcome where
  globals : Globals
  panicked : Option DictError
  deriving DecidableEq, Repr

/-- The loop `for d.Next() { ... AutoMagic = append(AutoMagic, record) }` of lines 144 to
199, with `fuel` bounding the number of calls of `Next`; `none` means the bound was reached
before `Next` answered `false`. -/
def forNext : Nat → DataDictionary → List AutoMagicRecord →
    Option (DataDictionary × List AutoMagicRecord)
  | 0, _, _ => none
  | fuel + 1, d, autoMagic =>
    match d.Next with
    | (true, d1) =>
      match readRecord d1 with
      | (record, d2) => forNext fuel d2 (autoMagic ++ [record])
    | (false, d1) => some (d1, autoMagic)

/-- The function `LoadAutoMagicRecords` (lines 129 to 206). The loop is given one call of
`Next` per data row and one more; `none` would mean that this was not enough. -/
def LoadAutoMagicRecords (file : String) (g : Globals) : Option Outcome :=
  -- AutoMagic = make([]*AutoMagicRecord, 0)
  let g1 : Globals := { g with AutoMagic := [] }
  -- d := d2common.LoadDataDictionary(file)
  match LoadDataDictionary file with
  | .error e => some { globals := g1, panicked := some e }
  | .ok d =>
    match forNext (d.rows.length + 1) d g1.AutoMagic with
    | none => none
    | some (d1, autoMagic) =>
      let g2 : Globals := { g1 with AutoMagic := autoMagic }
      match d1.Err with
      | some e => some { globals := g2, panicked := some e }
      | none =>
        some { globals :=
                 { g2 with
                   logged := g2.logged ++ [("Loaded %d AutoMagic records", g2.AutoMagic.length)] },
               panicked := none }

end d2datadict

/-! ## Vocabulary of the statements

Executable notions used to state the properties: what one read contributes to the error
slot, the schema of the mapper, well-formedness of a table. -/

namespace d2common

/-- The first of two optional errors: how the error slot combines what it holds with what
a later read reports. -/
def firstOf (a b : Option DictError) : Option DictError :=
  match a with
  | some e => some e
  | none => b

/-- The dictionary `d` after a read that reported `e` (or nothing). -/
def DataDictionary.orErr (d : DataDictionary) (e : Option DictError) : DataDictionary :=
  { d with Err := firstOf d.Err e }

/-- What a raw cell read gives on a cursor with Column Index `idx` positioned on `row`
(`none` when it is on no row): the value, and the error it reports. -/
def rawRead (idx : ColumnIndex) (row : Option (List String)) (field : String) :
    String × Option DictError :=
  match row with
  | none => ("", some .StateError)
  | some r =>
    match idx.position field with
    | none => ("", some (.MissingColumn field))
    | some p =>
      match r.get? p with
      | none => ("", some .StructuralError)
      | some c => (c, none)

/-- What an integer read gives on a cursor with Column Index `idx` positioned on `row`: the
value, and the error it reports. -/
def numRead (idx : ColumnIndex) (row : Option (List String)) (field : String) :
    Int × Option DictError :=
  match rawRead idx row field with
  | (c, e) =>
    if c = "" then (0, e)
    else
      match parseInt c with
      | some n => (n, e)
      | none => (0, firstOf e (some (.DecodeError field c)))

/-- The header names the column `field`, in some letter case. -/
def namesColumn (header : List String) (field : String) : Bool :=
  (header.map normalize).contains (normalize field)

/-- The header spells a column exactly `field` at position `p`, and no later column bears
that name in any letter case. -/
def namedAt (header : List String) (field : String) (p : Nat) : Bool :=
  header.get? p == some field &&
    (header.drop (p + 1)).all fun n => normalize n != normalize field

/-- A cursor with Column Index `idx` positioned on the single data row `row`, its error slot
empty. -/
def onRow (idx : ColumnIndex) (row : List String) : DataDictionary :=
  { lookup := idx, rows := [row], pos := 1, Err := none }

end d2common

namespace d2datadict

open d2common d2enum

/-- The reads of the composite literal of lines 145 to 196 in evaluation order; `true`
marks a call of `Number`, `false` a call of `String`. -/
def schema : List (Bool × String) :=
  [ (false, "Name"), (true, "version"), (true, "spawnable"), (true, "rare"), (true, "level"),
    (true, "maxlevel"), (true, "levelreq"), (false, "class"), (true, "classlevelreq"),
    (true, "frequency"), (true, "group"),
    (false, "mod1code"), (false, "mod2code"), (false, "mod3code"),
    (true, "mod1param"), (true, "mod2param"), (true, "mod3param"),
    (true, "mod1min"), (true, "mod2min"), (true, "mod3min"),
    (true, "mod1max"), (true, "mod2max"), (true, "mod3max"),
    (true, "transform"), (true, "transformcolor"),
    (false, "itype1"), (false, "itype2"), (false, "itype3"), (false, "itype4"),
    (false, "itype5"), (false, "itype6"), (false, "itype7"),
    (false, "etype1"), (false, "etype2"), (false, "etype3"),
    (true, "divide"), (true, "multiply"), (true, "add") ]

/-- The column names the mapper reads, in evaluation order. -/
def mapperColumns : List String := schema.map (fun r => r.2)

/-- The column names the mapper reads with `Number`. -/
def numberColumns : List String := (schema.filter (fun r => r.1)).map (fun r => r.2)

/-- The error one read of the schema reports on a cursor positioned on `row`. -/
def readError (idx : ColumnIndex) (row : Option (List String)) (r : Bool × String) :
    Option DictError :=
  match r.1 with
  | true => (numRead idx row r.2).2
  | false => (rawRead idx row r.2).2

/-- The first error among a list of reports. -/
def firstSome : List (Option DictError) → Option DictError
  | [] => none
  | e :: es => firstOf e (firstSome es)

/-- The record decoded from a data row: what lines 145 to 196 build on a cursor positioned
on that row. -/
def decodeRow (idx : ColumnIndex) (row : List String) : AutoMagicRecord :=
  (readRecord (onRow idx row)).1

/-- The first error the reads of lines 145 to 196 latch on a cursor positioned on `row`
whose error slot was empty. -/
def rowErr (idx : ColumnIndex) (row : List String) : Option DictError :=
  (readRecord (onRow idx row)).2.Err

/-- The first error latched over a sequence of data rows, rows in source order and, within
a row, reads in evaluation order. -/
def tableErr (idx : ColumnIndex) : List (List String) → Option DictError
  | [] => none
  | row :: rest => firstOf (rowErr idx row) (tableErr idx rest)

/-- The cell of `row` in column `c`, if the header has that column, is empty or a base-10
signed integer. -/
def numericCellOk (idx : ColumnIndex) (row : List String) (c : String) : Bool :=
  match idx.position c with
  | none => true
  | some p =>
    match row.get? p with
    | none => true
    | some s => s == "" || (parseInt s).isSome

/-- Every cell of `row` that stands in a column read with `Number` is empty or a base-10
signed integer. -/
def numericCellsOk (idx : ColumnIndex) (row : List String) : Bool :=
  numberColumns.all (numericCellOk idx row)

/-- The first column name, in evaluation order of the mapper's reads, that the header does
not bear in any letter case. -/
def firstOmitted (header : List String) : Option String :=
  mapperColumns.find? fun c => !namesColumn header c

/-- Some data row's column count differs from the header's. -/
def hasRaggedRow (file : String) : Bool :=
  match lines file with
  | [] => false
  | h :: rs => rs.any fun r => (columns r).length != (columns h).length

/-- The column-to-field mapping in the words of the claim: every field is the typed read of
one fixed column on the same cursor position, slot `k` of a multi-slot field from the
column numbered `k`. -/
def columnMapping (d : DataDictionary) : AutoMagicRecord :=
  { Name := (d.String "Name").1,
    Version := (d.Number "version").1,
    Spawnable := decide ((d.Number "spawnable").1 > 0),
    SpawnOnRare := decide ((d.Number "rare").1 > 0),
    MinSpawnLevel := (d.Number "level").1,
    MaxSpawnLevel := (d.Number "maxlevel").1,
    LevelRequirement := (d.Number "levelreq").1,
    Class := mapIndex charCodeMap (d.String "class").1,
    ClassLevelRequirement := (d.Number "classlevelreq").1,
    Frequency := (d.Number "frequency").1,
    Group := (d.Number "group").1,
    ModCode :=
      ⟨[(d.String "mod1code").1, (d.String "mod2code").1, (d.String "mod3code").1], rfl⟩,
    ModParam :=
      ⟨[(d.Number "mod1param").1, (d.Number "mod2param").1, (d.Number "mod3param").1], rfl⟩,
    ModMin :=
      ⟨[(d.Number "mod1min").1, (d.Number "mod2min").1, (d.Number "mod3min").1], rfl⟩,
    ModMax :=
      ⟨[(d.Number "mod1max").1, (d.Number "mod2max").1, (d.Number "mod3max").1], rfl⟩,
    Transform := decide ((d.Number "transform").1 > 0),
    PaletteTransform := (d.Number "transformcolor").1,
    IncludeItemCodes :=
      ⟨[(d.String "itype1").1, (d.String "itype2").1, (d.String "itype3").1,
        (d.String "itype4").1, (d.String "itype5").1, (d.String "itype6").1,
        (d.String "itype7").1], rfl⟩,
    ExcludeItemCodes :=
      ⟨[(d.String "etype1").1, (d.String "etype2").1, (d.String "etype3").1], rfl⟩,
    CostDivide := (d.Number "divide").1,
    CostMultiply := (d.Number "multiply").1,
    CostAdd := (d.Number "add").1 }

/-- The record `r` holds the integer `n` in the place the mapper stores the read of column
`c`: the integer field itself, or, for the three columns decoded into a boolean field,
that field holding `n > 0`. It is `false` for a column the mapper does not read with
`Number`. -/
def storesNumber (c : String) (r : AutoMagicRecord) (n : Int) : Bool :=
  match c with
  | "version" => r.Version == n
  | "spawnable" => r.Spawnable == decide (n > 0)
  | "rare" => r.SpawnOnRare == decide (n > 0)
  | "level" => r.MinSpawnLevel == n
  | "maxlevel" => r.MaxSpawnLevel == n
  | "levelreq" => r.LevelRequirement == n
  | "classlevelreq" => r.ClassLevelRequirement == n
  | "frequency" => r.Frequency == n
  | "group" => r.Group == n
  | "mod1param" => r.ModParam.at 0 == n
  | "mod2param" => r.ModParam.at 1 == n
  | "mod3param" => r.ModParam.at 2 == n
  | "mod1min" => r.ModMin.at 0 == n
  | "mod2min" => r.ModMin.at 1 == n
  | "mod3min" => r.ModMin.at 2 == n
  | "mod1max" => r.ModMax.at 0 == n
  | "mod2max" => r.ModMax.at 1 == n
  | "mod3max" => r.ModMax.at 2 == n
  | "transform" => r.Transform == decide (n > 0)
  | "transformcolor" => r.PaletteTransform == n
  | "divide" => r.CostDivide == n
  | "multiply" => r.CostMultiply == n
  | "add" => r.CostAdd == n
  | _ => false

/-- The `DecodeError` that reading column `c` of `row` with `Number` reports: the cell is
neither empty nor an integer that fits Go's `int`. `none` when the cell parses or the header
lacks the column. -/
def badCell (idx : ColumnIndex) (row : List String) (c : String) : Option DictError :=
  match idx.position c with
  | none => none
  | some p =>
    match row.get? p with
    | none => none
    | some s => if s == "" || (parseInt s).isSome then none else some (.DecodeError c s)

/-- The reads the mapper makes before it first asks for column `c1`, in evaluation order. -/
def readsBefore (c1 : String) : List (Bool × String) :=
  schema.takeWhile fun x => x.2 != c1

/-- The `DecodeError` of the first cell of `row`, in evaluation order, that is read with
`Number` before column `c1` is asked for and fails to parse. -/
def firstBadCellBefore (idx : ColumnIndex) (row : List String) (c1 : String) :
    Option DictError :=
  ((readsBefore c1).filter fun x => x.1).findSome? fun x => badCell idx row x.2

/-- How `LoadAutoMagicRecords` ends once the loop has left `records` in `AutoMagic` and
`err` in the error slot (lines 201 to 205). -/
def finish (g : Globals) (records : List AutoMagicRecord) (err : Option DictError) : Outcome :=
  match err with
  | some e => { globals := { AutoMagic := records, logged := g.logged }, panicked := some e }
  | none =>
    { globals :=
        { AutoMagic := records,
          logged := g.logged ++ [("Loaded %d AutoMagic records", records.length)] },
      panicked := none }

/-! ## Sample inputs -/

/-- A header line naming every column of the mapper, all in lowercase. -/
def lowerHeader : String :=
  "name\tversion\tspawnable\trare\tlevel\tmaxlevel\tlevelreq\tclass\t" ++
  "classlevelreq\tfrequency\tgroup\tmod1code\tmod2code\tmod3code\t" ++
  "mod1param\tmod2param\tmod3param\tmod1min\tmod2min\tmod3min\tmod1max\t" ++
  "mod2max\tmod3max\ttransform\ttransformcolor\titype1\titype2\titype3\t" ++
  "itype4\titype5\titype6\titype7\tetype1\tetype2\tetype3\tdivide\t" ++
  "multiply\tadd"

/-- A data row for `lowerHeader`: `Foo`, `100`, `1` in the first three columns. -/
def fooRow : String :=
  "Foo\t100\t1\t0\t5\t10\t3\tama\t2\t7\t301\tdmg\tac\t\t1\t2\t\t-3\t4\t\t" ++
  "5\t6\t\t1\t9\tweap\tarmo\t\t\t\t\t\tring\t\t\t8\t9\t10"

/-- A data row for `lowerHeader` with many empty cells. -/
def barRow : String :=
  "Bar\t0\t0\t1\t\t\t\t\t\t3\t302\tstr\t\t\t+4\t\t\t1\t\t\t2\t\t\t0\t\t" ++
  "tors\t\t\t\t\t\t\t\t\t\t\t\t"

/-- A data row for `lowerHeader` whose `version` cell is `abc`. -/
def abcRow : String :=
  "Bad\tabc\t1\t0\t5\t10\t3\tama\t2\t7\t301\tdmg\tac\t\t1\t2\t\t-3\t4\t\t" ++
  "5\t6\t\t1\t9\tweap\tarmo\t\t\t\t\t\tring\t\t\t8\t9\t10"

/-- A table of one data row. -/
def fooTable : String := lowerHeader ++ "\n" ++ fooRow ++ "\n"

/-- A table of two data rows. -/
def twoRowTable : String := lowerHeader ++ "\n" ++ fooRow ++ "\n" ++ barRow ++ "\n"

/-- A data row for `lowerHeader` whose `version` cell is empty. -/
def emptyVersionRow : String :=
  "Nil\t\t1\t0\t5\t10\t3\tama\t2\t7\t301\tdmg\tac\t\t1\t2\t\t-3\t4\t\t" ++
  "5\t6\t\t1\t9\tweap\tarmo\t\t\t\t\t\tring\t\t\t8\t9\t10"

/-- A data row for `lowerHeader` whose `version` cell is `5`. -/
def fiveVersionRow : String :=
  "Five\t5\t1\t0\t5\t10\t3\tama\t2\t7\t301\tdmg\tac\t\t1\t2\t\t-3\t4\t\t" ++
  "5\t6\t\t1\t9\tweap\tarmo\t\t\t\t\t\tring\t\t\t8\t9\t10"

/-- A table of two data rows, the `version` cell empty in the first and `5` in the second. -/
def emptyFiveTable : String :=
  lowerHeader ++ "\n" ++ emptyVersionRow ++ "\n" ++ fiveVersionRow ++ "\n"

/-- The tokenized form of `emptyFiveTable`. -/
def emptyFiveTableTokens : Table :=
  { header := columns lowerHeader.data,
    rows := [columns emptyVersionRow.data, columns fiveVersionRow.data] }

/-- A table whose first data row has an unparseable integer cell and whose second is sound. -/
def abcTable : String := lowerHeader ++ "\n" ++ abcRow ++ "\n" ++ fooRow ++ "\n"

/-- A table whose second data row has two columns only. -/
def raggedTable : String := lowerHeader ++ "\n" ++ fooRow ++ "\n" ++ "short\trow\n"

/-- The header line with exactly the columns the mapper reads with `Number`. -/
def numericHeader : String :=
  "version\tspawnable\trare\tlevel\tmaxlevel\tlevelreq\tclasslevelreq\t" ++
  "frequency\tgroup\tmod1param\tmod2param\tmod3param\tmod1min\tmod2min\t" ++
  "mod3min\tmod1max\tmod2max\tmod3max\ttransform\ttransformcolor\t" ++
  "divide\tmultiply\tadd"

/-- A data row for `numericHeader`, every cell a number. -/
def numericRow : String :=
  "1\t2\t3\t4\t5\t6\t7\t8\t9\t10\t11\t12\t13\t14\t15\t16\t17\t18\t19\t" ++
  "20\t21\t22\t23"

/-- A table with exactly the columns the mapper reads with `Number` and one data row. -/
def numericOnlyTable : String := numericHeader ++ "\n" ++ numericRow ++ "\n"

/-- A header of three columns and no data row. -/
def headerOnly : String := "name\tversion\tspawnable\n"

/-- The three-column table of the spec's example. -/
def bareTable : String := "name\tversion\tspawnable\nFoo\t100\t1"

/-- The tokenized form of `fooTable`. -/
def fooTableTokens : Table :=
  { header := columns lowerHeader.data, rows := [columns fooRow.data] }

/-- The tokenized form of `twoRowTable`. -/
def twoRowTableTokens : Table :=
  { header := columns lowerHeader.data, rows := [columns fooRow.data, columns barRow.data] }

/-- The tokenized form of `abcTable`. -/
def abcTableTokens : Table :=
  { header := columns lowerHeader.data, rows := [columns abcRow.data, columns fooRow.data] }

/-- State left by an earlier load: one record in `AutoMagic`, one line logged. -/
def staleGlobals : Globals :=
  { AutoMagic := [decodeRow (ColumnIndex.build (columns lowerHeader.data)) (columns barRow.data)],
    logged := [("Loaded %d AutoMagic records", 1)] }

end d2datadict

/-! ## Lemmas on the data dictionary -/

namespace d2common

@[simp] theorem firstOf_none_left (b : Option DictError) : firstOf none b = b := rfl

@[simp] theorem firstOf_none_right (a : Option DictError) : firstOf a none = a := by
  cases a <;> rfl

@[simp] theorem firstOf_some (e : DictError) (b : Option DictError) :
    firstOf (some e) b = some e := rfl

theorem firstOf_assoc (a b c : Option DictError) :
    firstOf (firstOf a b) c = firstOf a (firstOf b c) := by
  cases a <;> rfl

theorem firstOf_eq_none {a b : Option DictError} :
    firstOf a b = none ↔ a = none ∧ b = none := by
  cases a <;> simp

theorem latch_eq_orErr (d : DataDictionary) (e : DictError) :
    d.latch e = d.orErr (some e) := by
  cases d with
  | mk l r p err => cases err <;> rfl

@[simp] theorem orErr_none (d : DataDictionary) : d.orErr none = d := by
  cases d with
  | mk l r p err => cases err <;> rfl

@[simp] theorem orErr_lookup (d : DataDictionary) (e : Option DictError) :
    (d.orErr e).lookup = d.lookup := rfl

@[simp] theorem orErr_rows (d : DataDictionary) (e : Option DictError) :
    (d.orErr e).rows = d.rows := rfl

@[simp] theorem orErr_pos (d : DataDictionary) (e : Option DictError) :
    (d.orErr e).pos = d.pos := rfl

@[simp] theorem orErr_Err (d : DataDictionary) (e : Option DictError) :
    (d.orErr e).Err = firstOf d.Err e := rfl

@[simp] theorem orErr_record (d : DataDictionary) (e : Option DictError) :
    (d.orErr e).record = d.record := rfl

@[simp] theorem orErr_orErr (d : DataDictionary) (a b : Option DictError) :
    (d.orErr a).orErr b = d.orErr (firstOf a b) := by
  simp [DataDictionary.orErr, firstOf_assoc]

theorem cell_eq (d : DataDictionary) (field : String) :
    d.cell field = ((rawRead d.lookup d.record field).1,
      d.orErr (rawRead d.lookup d.record field).2) := by
  unfold DataDictionary.cell rawRead
  cases d.record with
  | none => simp [latch_eq_orErr]
  | some row =>
    simp only
    cases d.lookup.position field with
    | none => simp [latch_eq_orErr]
    | some p =>
      simp only
      cases row.get? p with
      | none => simp [latch_eq_orErr]
      | some c => simp

theorem String_eq (d : DataDictionary) (field : String) :
    d.String field = ((rawRead d.lookup d.record field).1,
      d.orErr (rawRead d.lookup d.record field).2) := cell_eq d field

theorem Number_eq (d : DataDictionary) (field : String) :
    d.Number field = ((numRead d.lookup d.record field).1,
      d.orErr (numRead d.lookup d.record field).2) := by
  unfold DataDictionary.Number numRead
  rw [cell_eq]
  rcases rawRead d.lookup d.record field with ⟨c, e⟩
  simp only
  by_cases hc : c = ""
  · simp [hc]
  · simp only [hc, if_false]
    cases parseInt c with
    | none => simp [latch_eq_orErr]
    | some n => simp

@[simp] theorem onRow_lookup (idx : ColumnIndex) (row : List String) :
    (onRow idx row).lookup = idx := rfl

@[simp] theorem onRow_record (idx : ColumnIndex) (row : List String) :
    (onRow idx row).record = some row := rfl

@[simp] theorem onRow_Err (idx : ColumnIndex) (row : List String) :
    (onRow idx row).Err = none := rfl

end d2common

/-! ## Lemmas on the mapper -/

namespace d2datadict

open d2common d2enum

/-- The dictionary a record read leaves behind: the same cursor with the first error of
the reads latched. -/
theorem readRecord_snd (d : DataDictionary) :
    (readRecord d).2 = d.orErr ((schema.map (readError d.lookup d.record)).foldl firstOf none) := by
  simp only [readRecord, String_eq, Number_eq, orErr_lookup, orErr_record, orErr_orErr]
  rfl

/-- The record read is the column mapping, whatever the error slot holds meanwhile. -/
theorem readRecord_fst (d : DataDictionary) : (readRecord d).1 = columnMapping d := by
  simp only [readRecord, columnMapping, String_eq, Number_eq, orErr_lookup, orErr_record,
    orErr_orErr]

/-- The column mapping looks only at the Column Index and the current row. -/
theorem columnMapping_congr (d d1 : DataDictionary) (hl : d.lookup = d1.lookup)
    (hr : d.record = d1.record) : columnMapping d = columnMapping d1 := by
  simp only [columnMapping, String_eq, Number_eq, hl, hr]

theorem foldl_firstOf (l : List (Option DictError)) (a : Option DictError) :
    l.foldl firstOf a = firstOf a (firstSome l) := by
  induction l generalizing a with
  | nil => simp [firstSome]
  | cons e es ih => simp [firstSome, ih, firstOf_assoc]

theorem rowErr_eq (idx : ColumnIndex) (row : List String) :
    rowErr idx row = firstSome (schema.map (readError idx (some row))) := by
  unfold rowErr
  rw [readRecord_snd, foldl_firstOf]
  simp

/-- On a cursor positioned on `row`, a record read gives the record decoded from `row` and
latches the first error of that row. -/
theorem readRecord_eq (d : DataDictionary) (row : List String) (hr : d.record = some row) :
    readRecord d = (decodeRow d.lookup row, d.orErr (rowErr d.lookup row)) := by
  have h1 : (readRecord d).1 = decodeRow d.lookup row := by
    unfold decodeRow
    rw [readRecord_fst, readRecord_fst]
    exact columnMapping_congr _ _ rfl (by rw [hr]; rfl)
  have h2 : (readRecord d).2 = d.orErr (rowErr d.lookup row) := by
    rw [rowErr_eq, readRecord_snd, foldl_firstOf, hr]
    simp
  exact Prod.ext h1 h2

theorem next_of_lt (d : DataDictionary) (h : d.pos < d.rows.length) :
    d.Next = (true, { d with pos := d.pos + 1 }) := by
  simp [DataDictionary.Next, h]

theorem next_of_not_lt (d : DataDictionary) (h : ¬ d.pos < d.rows.length) :
    d.Next = (false, { d with pos := d.rows.length + 1 }) := by
  simp [DataDictionary.Next, h]

/-- The loop, given enough calls of `Next`, visits every row from the cursor's position on:
it appends the record decoded from each, in order, and leaves the cursor exhausted with the
first error latched. -/
theorem forNext_eq (n : Nat) (d : DataDictionary) (acc : List AutoMagicRecord)
    (h : d.rows.length - d.pos < n) :
    forNext n d acc =
      some ({ d with pos := d.rows.length + 1,
                     Err := firstOf d.Err (tableErr d.lookup (d.rows.drop d.pos)) },
            acc ++ (d.rows.drop d.pos).map (decodeRow d.lookup)) := by
  induction n generalizing d acc with
  | zero => omega
  | succ n ih =>
    unfold forNext
    by_cases hp : d.pos < d.rows.length
    · rw [next_of_lt d hp]
      have hrec : ({ d with pos := d.pos + 1 } : DataDictionary).record = some d.rows[d.pos] := by
        simp [DataDictionary.record, List.getElem?_eq_getElem hp]
      have hdrop : d.rows.drop d.pos = d.rows[d.pos] :: d.rows.drop (d.pos + 1) :=
        List.drop_eq_getElem_cons hp
      simp only [readRecord_eq _ _ hrec]
      rw [ih _ _ (by simp; omega)]
      simp only [orErr_rows, orErr_pos, orErr_lookup, orErr_Err, hdrop, List.map_cons, tableErr,
        List.append_assoc, List.singleton_append, firstOf_assoc, DataDictionary.orErr]
    · rw [next_of_not_lt d hp]
      have hdrop : d.rows.drop d.pos = [] := by
        apply List.drop_eq_nil_of_le
        omega
      simp [hdrop, tableErr]

/-- The whole function on an input the tokenizer accepts. -/
theorem load_of_tokenize_ok (file : String) (g : Globals) (t : Table)
    (h : tokenize file = .ok t) :
    LoadAutoMagicRecords file g =
      some (finish g (t.rows.map (decodeRow (ColumnIndex.build t.header)))
        (tableErr (ColumnIndex.build t.header) t.rows)) := by
  unfold LoadAutoMagicRecords LoadDataDictionary
  simp only [h]
  rw [forNext_eq _ _ _ (by simp)]
  simp only [List.drop_zero, List.nil_append, firstOf_none_left]
  cases tableErr (ColumnIndex.build t.header) t.rows <;> rfl

/-- The whole function on an input the tokenizer rejects. -/
theorem load_of_tokenize_error (file : String) (g : Globals) (e : DictError)
    (h : tokenize file = .error e) :
    LoadAutoMagicRecords file g =
      some { globals := { AutoMagic := [], logged := g.logged }, panicked := some e } := by
  unfold LoadAutoMagicRecords LoadDataDictionary
  simp only [h]

theorem finish_panicked (g : Globals) (records : List AutoMagicRecord)
    (err : Option DictError) : (finish g records err).panicked = err := by
  cases err <;> rfl

theorem finish_AutoMagic (g : Globals) (records : List AutoMagicRecord)
    (err : Option DictError) : (finish g records err).globals.AutoMagic = records := by
  cases err <;> rfl

theorem loadDataDictionary_ok (file : String) (d : DataDictionary)
    (h : LoadDataDictionary file = .ok d) :
    ∃ t, tokenize file = .ok t ∧
      d = { lookup := ColumnIndex.build t.header, rows := t.rows, pos := 0, Err := none } := by
  unfold LoadDataDictionary at h
  cases ht : tokenize file with
  | error e => simp [ht] at h
  | ok t =>
    simp only [ht, Except.ok.injEq] at h
    exact ⟨t, rfl, h.symm⟩

theorem tokenize_ok_rows (file : String) (t : Table) (h : tokenize file = .ok t) :
    ∀ row ∈ t.rows, row.length = t.header.length := by
  unfold tokenize at h
  cases hl : lines file with
  | nil => simp [hl] at h
  | cons hd rs =>
    simp only [hl] at h
    split at h
    · rename_i hall
      simp only [Except.ok.injEq] at h
      subst h
      intro row hrow
      simpa using (List.all_eq_true.mp hall) row hrow
    · simp at h

theorem tokenize_ok_lines (file : String) (t : Table) (h : tokenize file = .ok t) :
    t.rows.length + 1 = (lines file).length := by
  unfold tokenize at h
  cases hl : lines file with
  | nil => simp [hl] at h
  | cons hd rs =>
    simp only [hl] at h
    split at h
    · simp only [Except.ok.injEq] at h
      subst h
      simp
    · simp at h

theorem tokenize_bad_row (file : String) (h : List Char) (rs : List (List Char))
    (hl : lines file = h :: rs)
    (hbad : ∃ r ∈ rs, (columns r).length ≠ (columns h).length) :
    tokenize file = .error .StructuralError := by
  unfold tokenize
  simp only [hl]
  split
  · rename_i hall
    obtain ⟨r, hr, hne⟩ := hbad
    have := (List.all_eq_true.mp hall) (columns r) (List.mem_map_of_mem _ hr)
    simp at this
    exact absurd this hne
  · rfl

theorem tokenize_error (file : String) (e : DictError) (h : tokenize file = .error e) :
    e = .StructuralError := by
  unfold tokenize at h
  split at h
  · simp only [Except.error.injEq] at h
    exact h.symm
  · split at h
    · simp at h
    · simp only [Except.error.injEq] at h
      exact h.symm

end d2datadict

/-! ## Lemmas on the Column Index -/

namespace d2common

theorem indexFrom_append (s : Nat) (l : List String) (a : String) :
    indexFrom s (l ++ [a]) = indexFrom s l ++ [(normalize a, s + l.length)] := by
  induction l generalizing s with
  | nil => simp [indexFrom]
  | cons x xs ih =>
    have hlen : s + 1 + xs.length = s + (xs.length + 1) := by omega
    show (normalize x, s) :: indexFrom (s + 1) (xs ++ [a]) = _
    rw [ih, hlen]
    rfl

theorem build_append (l : List String) (a : String) :
    ColumnIndex.build (l ++ [a]) = (normalize a, l.length) :: ColumnIndex.build l := by
  simp [ColumnIndex.build, indexFrom_append]

/-- Looking a name up in the index of a header extended by one column: the new column wins
when it bears the name, in any letter case. -/
theorem position_build_append (l : List String) (a field : String) :
    (ColumnIndex.build (l ++ [a])).position field =
      if normalize field = normalize a then some l.length
      else (ColumnIndex.build l).position field := by
  unfold ColumnIndex.position
  rw [build_append, List.lookup_cons]
  by_cases h : normalize field = normalize a
  · simp [h]
  · have hb : (normalize field == normalize a) = false := by simpa using h
    simp [hb, h]

theorem position_build_nil (field : String) :
    (ColumnIndex.build []).position field = none := rfl

/-- A resolved position lies inside the header. -/
theorem position_build_lt (h : List String) (field : String) (p : Nat)
    (hp : (ColumnIndex.build h).position field = some p) : p < h.length := by
  induction h using List.reverseRecOn generalizing p with
  | nil => simp [position_build_nil] at hp
  | append_singleton l a ih =>
    rw [position_build_append] at hp
    split at hp
    · simp only [Option.some.injEq] at hp
      simp
      omega
    · have := ih p hp
      simp
      omega

theorem namesColumn_append (l : List String) (a field : String) :
    namesColumn (l ++ [a]) field =
      (namesColumn l field || decide (normalize field = normalize a)) := by
  simp only [namesColumn, List.map_append, List.map_cons, List.map_nil, List.contains_eq_any_beq,
    List.any_append, List.any_cons, List.any_nil, Bool.or_false]
  by_cases h : normalize field = normalize a <;> simp [h]

/-- A name the header bears, in any letter case, resolves. -/
theorem position_of_namesColumn (h : List String) (field : String)
    (hn : namesColumn h field = true) : ∃ p, (ColumnIndex.build h).position field = some p := by
  induction h using List.reverseRecOn with
  | nil => simp [namesColumn] at hn
  | append_singleton l a ih =>
    rw [position_build_append]
    by_cases hc : normalize field = normalize a
    · exact ⟨l.length, by simp [hc]⟩
    · rw [namesColumn_append] at hn
      simp only [hc, decide_False, Bool.or_false] at hn
      obtain ⟨p, hp⟩ := ih hn
      exact ⟨p, by simp [hc, hp]⟩

/-- A name the header does not bear in any letter case is the MissingColumn condition. -/
theorem position_of_not_namesColumn (h : List String) (field : String)
    (hn : namesColumn h field = false) : (ColumnIndex.build h).position field = none := by
  induction h using List.reverseRecOn with
  | nil => rfl
  | append_singleton l a ih =>
    rw [namesColumn_append] at hn
    simp only [Bool.or_eq_false_iff, decide_eq_false_iff_not] at hn
    rw [position_build_append]
    simp only [hn.2, if_false]
    exact ih hn.1

theorem position_isNone_eq (h : List String) (field : String) :
    ((ColumnIndex.build h).position field).isNone = !namesColumn h field := by
  cases hn : namesColumn h field with
  | true =>
    obtain ⟨p, hp⟩ := position_of_namesColumn h field hn
    simp [hp]
  | false => simp [position_of_not_namesColumn h field hn]

/-- Last occurrence wins: a column spelled `field` at position `p`, with no later column of
that name, is what every letter-case variant of `field` resolves to. -/
theorem position_of_namedAt (h : List String) (field req : String) (p : Nat)
    (hn : namedAt h field p = true) (hreq : normalize req = normalize field) :
    (ColumnIndex.build h).position req = some p := by
  induction h using List.reverseRecOn with
  | nil => simp [namedAt] at hn
  | append_singleton l a ih =>
    rw [position_build_append]
    simp only [namedAt, Bool.and_eq_true, beq_iff_eq, List.all_eq_true, bne_iff_ne,
      List.get?_eq_getElem?] at hn
    obtain ⟨hget, hlater⟩ := hn
    rcases Nat.lt_trichotomy p l.length with hlt | heq | hgt
    · have ha : normalize a ≠ normalize field := by
        apply hlater
        rw [List.drop_append_of_le_length (by omega)]
        simp
      have hne : ¬ normalize req = normalize a := by
        rw [hreq]
        exact fun hh => ha hh.symm
      simp only [hne, if_false]
      apply ih
      simp only [namedAt, Bool.and_eq_true, beq_iff_eq, List.all_eq_true, bne_iff_ne,
        List.get?_eq_getElem?]
      refine ⟨?_, ?_⟩
      · rw [List.getElem?_append_left hlt] at hget
        exact hget
      · intro n hmem
        apply hlater
        rw [List.drop_append_of_le_length (by omega)]
        exact List.mem_append_left _ hmem
    · subst heq
      simp only [List.getElem?_append_right (Nat.le_refl _), Nat.sub_self, List.getElem?_cons_zero,
        Option.some.injEq] at hget
      subst hget
      simp [hreq]
    · rw [List.getElem?_eq_none (by simp; omega)] at hget
      simp at hget

/-- The Column Index is built from the normalized names alone. -/
theorem indexFrom_congr (s : Nat) (h1 h2 : List String)
    (h : h1.map normalize = h2.map normalize) : indexFrom s h1 = indexFrom s h2 := by
  induction h1 generalizing s h2 with
  | nil =>
    cases h2 with
    | nil => rfl
    | cons b bs => simp at h
  | cons a as ih =>
    cases h2 with
    | nil => simp at h
    | cons b bs =>
      simp only [List.map_cons, List.cons.injEq] at h
      simp only [indexFrom, h.1, ih _ _ h.2]

theorem build_congr (h1 h2 : List String) (h : h1.map normalize = h2.map normalize) :
    ColumnIndex.build h1 = ColumnIndex.build h2 := by
  unfold ColumnIndex.build
  rw [indexFrom_congr 0 h1 h2 h]

/-- Lookups do not see the letter case of the requested name. -/
theorem position_congr (idx : ColumnIndex) (a b : String) (h : normalize a = normalize b) :
    idx.position a = idx.position b := by
  unfold ColumnIndex.position
  rw [h]

/-! ## Lemmas on single reads -/

theorem rawRead_resolved (idx : ColumnIndex) (row : List String) (field s : String) (p : Nat)
    (hp : idx.position field = some p) (hs : row.get? p = some s) :
    rawRead idx (some row) field = (s, none) := by
  simp only [rawRead, hp, hs]

theorem rawRead_missing (idx : ColumnIndex) (row : List String) (field : String)
    (hp : idx.position field = none) :
    rawRead idx (some row) field = ("", some (.MissingColumn field)) := by
  simp [rawRead, hp]

theorem numRead_missing (idx : ColumnIndex) (row : List String) (field : String)
    (hp : idx.position field = none) :
    numRead idx (some row) field = (0, some (.MissingColumn field)) := by
  simp [numRead, rawRead_missing idx row field hp]

theorem numRead_empty (idx : ColumnIndex) (row : List String) (field : String) (p : Nat)
    (hp : idx.position field = some p) (hs : row.get? p = some "") :
    numRead idx (some row) field = (0, none) := by
  simp [numRead, rawRead_resolved idx row field "" p hp hs]

theorem numRead_parsed (idx : ColumnIndex) (row : List String) (field s : String) (p : Nat)
    (n : Int) (hp : idx.position field = some p) (hs : row.get? p = some s) (hne : s ≠ "")
    (hn : parseInt s = some n) : numRead idx (some row) field = (n, none) := by
  simp [numRead, rawRead_resolved idx row field s p hp hs, hne, hn]

theorem numRead_unparsed (idx : ColumnIndex) (row : List String) (field s : String) (p : Nat)
    (hp : idx.position field = some p) (hs : row.get? p = some s) (hne : s ≠ "")
    (hn : parseInt s = none) :
    numRead idx (some row) field = (0, some (.DecodeError field s)) := by
  simp [numRead, rawRead_resolved idx row field s p hp hs, hne, hn]

theorem parseInt_empty : parseInt "" = none := rfl

/-- A parsed cell is a value a Go `int` can hold. -/
theorem parseInt_fits (s : String) (n : Int) (h : parseInt s = some n) :
    minInt ≤ n ∧ n ≤ maxInt := by
  unfold parseInt at h
  cases hv : signedValue s with
  | none => simp [hv] at h
  | some m =>
    simp only [hv] at h
    split at h
    · rename_i hfit
      simp only [Option.some.injEq] at h
      subst h
      simpa [fitsInt] using hfit
    · simp at h

/-- Every result of `Number` is a value a Go `int` can hold. -/
theorem Number_fits (d : DataDictionary) (field : String) :
    minInt ≤ (d.Number field).1 ∧ (d.Number field).1 ≤ maxInt := by
  unfold DataDictionary.Number
  rcases d.cell field with ⟨c, d1⟩
  simp only
  by_cases hc : c = ""
  · simp only [hc, if_true]
    decide
  · simp only [hc, if_false]
    cases hn : parseInt c with
    | none =>
      show minInt ≤ (0 : Int) ∧ (0 : Int) ≤ maxInt
      decide
    | some n => exact parseInt_fits c n hn

end d2common

/-! ## Lemmas on the errors of a row and of a table -/

namespace d2datadict

open d2common d2enum

theorem readError_missing (idx : ColumnIndex) (row : List String) (x : Bool × String)
    (hp : idx.position x.2 = none) :
    readError idx (some row) x = some (.MissingColumn x.2) := by
  rcases x with ⟨k, c⟩
  cases k
  · simp only [readError, rawRead_missing idx row c hp]
  · simp only [readError, numRead_missing idx row c hp]

theorem readError_string (idx : ColumnIndex) (row : List String) (c : String) (p : Nat)
    (hp : idx.position c = some p) (hlt : p < row.length) :
    readError idx (some row) (false, c) = none := by
  have hs : row.get? p = some row[p] := by
    rw [List.get?_eq_getElem?, List.getElem?_eq_getElem hlt]
  simp only [readError, rawRead_resolved idx row c _ p hp hs]

theorem readError_number (idx : ColumnIndex) (row : List String) (c : String) (p : Nat)
    (hp : idx.position c = some p) (hlt : p < row.length) :
    (numericCellOk idx row c = true → readError idx (some row) (true, c) = none) ∧
    (readError idx (some row) (true, c) = none ∨
      readError idx (some row) (true, c) = some (.DecodeError c row[p])) := by
  have hs : row.get? p = some row[p] := by
    rw [List.get?_eq_getElem?, List.getElem?_eq_getElem hlt]
  by_cases he : row[p] = ""
  · have h0 : readError idx (some row) (true, c) = none := by
      simp only [readError, numRead_empty idx row c p hp (by rw [hs, he])]
    exact ⟨fun _ => h0, Or.inl h0⟩
  · cases hn : parseInt row[p] with
    | some n =>
      have h0 : readError idx (some row) (true, c) = none := by
        simp only [readError, numRead_parsed idx row c _ p n hp hs he hn]
      exact ⟨fun _ => h0, Or.inl h0⟩
    | none =>
      have h1 : readError idx (some row) (true, c) = some (.DecodeError c row[p]) := by
        simp only [readError, numRead_unparsed idx row c _ p hp hs he hn]
      refine ⟨fun hok => ?_, Or.inr h1⟩
      simp only [numericCellOk, hp, hs] at hok
      simp [he, hn] at hok

theorem firstSome_eq_none (l : List (Option DictError)) :
    firstSome l = none ↔ ∀ e ∈ l, e = none := by
  induction l with
  | nil => simp [firstSome]
  | cons e es ih => simp [firstSome, firstOf_eq_none, ih]

/-- Reads of resolved columns whose numeric cells parse report nothing. -/
theorem firstSome_schema_none (idx : ColumnIndex) (row : List String)
    (hin : ∀ c p, idx.position c = some p → p < row.length) (l : List (Bool × String))
    (hres : ∀ x ∈ l, ∃ p, idx.position x.2 = some p)
    (hok : ∀ x ∈ l, x.1 = true → numericCellOk idx row x.2 = true) :
    firstSome (l.map (readError idx (some row))) = none := by
  rw [firstSome_eq_none]
  intro e he
  obtain ⟨x, hx, rfl⟩ := List.mem_map.mp he
  obtain ⟨p, hp⟩ := hres x hx
  rcases x with ⟨k, c⟩
  cases k
  · exact readError_string idx row c p hp (hin c p hp)
  · exact (readError_number idx row c p hp (hin c p hp)).1 (hok _ hx rfl)

/-- When some column of the schema is unresolved, the row's first error is the
`MissingColumn` of the first such column, unless an earlier numeric cell failed to parse. -/
theorem firstSome_schema_missing (idx : ColumnIndex) (row : List String)
    (hin : ∀ c p, idx.position c = some p → p < row.length) (l : List (Bool × String))
    (c1 : String)
    (hfind : (l.map (fun r => r.2)).find? (fun c => (idx.position c).isNone) = some c1) :
    (firstSome (l.map (readError idx (some row))) = some (.MissingColumn c1) ∨
      ∃ c s, firstSome (l.map (readError idx (some row))) = some (.DecodeError c s)) ∧
    ((∀ x ∈ l, x.1 = true → numericCellOk idx row x.2 = true) →
      firstSome (l.map (readError idx (some row))) = some (.MissingColumn c1)) := by
  induction l with
  | nil => simp at hfind
  | cons x xs ih =>
    simp only [List.map_cons, List.find?_cons] at hfind
    simp only [List.map_cons, firstSome]
    cases hp : idx.position x.2 with
    | none =>
      simp only [hp, Option.isNone_none, Option.some.injEq] at hfind
      subst hfind
      rw [readError_missing idx row x hp]
      exact ⟨Or.inl rfl, fun _ => rfl⟩
    | some p =>
      simp only [hp, Option.isNone_some] at hfind
      have ih1 := ih hfind
      rcases x with ⟨k, c⟩
      cases k
      · rw [readError_string idx row c p hp (hin c p hp)]
        simp only [firstOf_none_left]
        exact ⟨ih1.1, fun hok => ih1.2 (fun y hy => hok y (List.mem_cons_of_mem _ hy))⟩
      · have hnum := readError_number idx row c p hp (hin c p hp)
        refine ⟨?_, fun hok => ?_⟩
        · rcases hnum.2 with h0 | h1
          · rw [h0]
            simp only [firstOf_none_left]
            exact ih1.1
          · rw [h1]
            exact Or.inr ⟨c, _, rfl⟩
        · rw [hnum.1 (hok _ (List.mem_cons_self _ _) rfl)]
          simp only [firstOf_none_left]
          exact ih1.2 (fun y hy => hok y (List.mem_cons_of_mem _ hy))

theorem firstSome_ne_none (l : List (Option DictError)) (e : DictError) (h : some e ∈ l) :
    ∃ e1, firstSome l = some e1 := by
  cases hf : firstSome l with
  | some e1 => exact ⟨e1, rfl⟩
  | none =>
    have := (firstSome_eq_none l).mp hf _ h
    simp at this

theorem tableErr_eq_none (idx : ColumnIndex) (rows : List (List String))
    (h : ∀ row ∈ rows, rowErr idx row = none) : tableErr idx rows = none := by
  induction rows with
  | nil => rfl
  | cons r rs ih =>
    simp only [tableErr, firstOf_eq_none]
    exact ⟨h r (List.mem_cons_self _ _), ih (fun row hrow => h row (List.mem_cons_of_mem _ hrow))⟩

theorem tableErr_ne_none (idx : ColumnIndex) (rows : List (List String)) (row : List String)
    (e : DictError) (hrow : row ∈ rows) (h : rowErr idx row = some e) :
    ∃ e1, tableErr idx rows = some e1 := by
  cases hf : tableErr idx rows with
  | some e1 => exact ⟨e1, rfl⟩
  | none =>
    exfalso
    induction rows with
    | nil => simp at hrow
    | cons r rs ih =>
      simp only [tableErr, firstOf_eq_none] at hf
      rcases List.mem_cons.mp hrow with heq | hmem
      · subst heq
        rw [h] at hf
        simp at hf
      · exact ih hmem hf.2

theorem mem_schema_of_mem_mapperColumns (c : String) (h : c ∈ mapperColumns) :
    ∃ k, (k, c) ∈ schema := by
  unfold mapperColumns at h
  obtain ⟨x, hx, rfl⟩ := List.mem_map.mp h
  exact ⟨x.1, hx⟩

theorem mem_mapperColumns_of_mem_schema (x : Bool × String) (h : x ∈ schema) :
    x.2 ∈ mapperColumns :=
  List.mem_map_of_mem _ h

theorem mem_numberColumns_of_mem_schema (x : Bool × String) (h : x ∈ schema)
    (hk : x.1 = true) : x.2 ∈ numberColumns := by
  unfold numberColumns
  exact List.mem_map_of_mem _ (List.mem_filter.mpr ⟨h, hk⟩)

theorem mem_schema_of_mem_numberColumns (c : String) (h : c ∈ numberColumns) :
    (true, c) ∈ schema := by
  unfold numberColumns at h
  obtain ⟨x, hx, rfl⟩ := List.mem_map.mp h
  obtain ⟨hmem, hk⟩ := List.mem_filter.mp hx
  rcases x with ⟨k, c⟩
  simp only at hk
  subst hk
  exact hmem

/-- What reading a resolved column with `Number` reports is the cell's `DecodeError`, if it
has one. -/
theorem readError_number_eq_badCell (idx : ColumnIndex) (row : List String) (c : String)
    (p : Nat) (hp : idx.position c = some p) (hlt : p < row.length) :
    readError idx (some row) (true, c) = badCell idx row c := by
  have hs : row.get? p = some row[p] := by
    rw [List.get?_eq_getElem?, List.getElem?_eq_getElem hlt]
  simp only [badCell, hp, hs]
  by_cases he : row[p] = ""
  · simp only [readError, numRead_empty idx row c p hp (by rw [hs, he])]
    simp [he]
  · cases hn : parseInt row[p] with
    | some n =>
      simp only [readError, numRead_parsed idx row c _ p n hp hs he hn]
      simp
    | none =>
      simp only [readError, numRead_unparsed idx row c _ p hp hs he hn]
      simp [he]

/-- When some column of the schema is unresolved, the row's first error is the `DecodeError`
of the first integer cell read before the first such column that fails to parse, and the
`MissingColumn` of that column when there is no such cell. -/
theorem firstSome_schema_missing_exact (idx : ColumnIndex) (row : List String)
    (hin : ∀ c p, idx.position c = some p → p < row.length) (l : List (Bool × String))
    (c1 : String)
    (hfind : (l.map (fun r => r.2)).find? (fun c => (idx.position c).isNone) = some c1) :
    firstSome (l.map (readError idx (some row))) =
      some ((((l.takeWhile fun x => x.2 != c1).filter fun x => x.1).findSome?
        fun x => badCell idx row x.2).getD (.MissingColumn c1)) := by
  induction l with
  | nil => simp at hfind
  | cons x xs ih =>
    have hc1 : idx.position c1 = none := by
      have := List.find?_some hfind
      simpa using this
    simp only [List.map_cons, List.find?_cons] at hfind
    simp only [List.map_cons, firstSome]
    cases hp : idx.position x.2 with
    | none =>
      simp only [hp, Option.isNone_none, Option.some.injEq] at hfind
      rw [readError_missing idx row x hp, hfind]
      simp [List.takeWhile, hfind]
    | some p =>
      simp only [hp, Option.isNone_some] at hfind
      have hne : (x.2 != c1) = true := by
        simp only [bne_iff_ne, ne_eq]
        intro heq
        rw [heq, hc1] at hp
        simp at hp
      rw [ih hfind]
      rcases x with ⟨k, c⟩
      simp only at hne hp
      cases k
      · rw [readError_string idx row c p hp (hin c p hp)]
        simp [List.takeWhile, hne, List.filter]
      · rw [readError_number_eq_badCell idx row c p hp (hin c p hp)]
        simp only [List.takeWhile, hne, List.filter, List.findSome?]
        cases badCell idx row c <;> simp

/-- The record built on a cursor position holds, for every column read with `Number`, the
integer that `Number` gives there, in the place the mapper stores it. -/
theorem storesNumber_columnMapping (c : String) (hc : c ∈ numberColumns)
    (d : DataDictionary) : storesNumber c (columnMapping d) (d.Number c).1 = true := by
  simp only [numberColumns, schema, List.filter, List.map, List.mem_cons,
    List.mem_singleton, List.not_mem_nil, or_false] at hc
  rcases hc with h | h | h | h | h | h | h | h | h | h | h | h | h | h | h | h | h | h | h
    | h | h | h | h <;> subst h <;> simp [storesNumber, columnMapping, GoArray.at]

/-- A table whose header names every column of the mapper and whose integer cells are empty
or numeric latches no error. -/
theorem tableErr_wellFormed (file : String) (t : Table) (htok : tokenize file = .ok t)
    (hcols : (t.rows.isEmpty || mapperColumns.all (namesColumn t.header)) = true)
    (hnum : t.rows.all (numericCellsOk (ColumnIndex.build t.header)) = true) :
    tableErr (ColumnIndex.build t.header) t.rows = none := by
  apply tableErr_eq_none
  intro row hrow
  have hne : t.rows.isEmpty = false := by
    cases hr : t.rows with
    | nil => rw [hr] at hrow; simp at hrow
    | cons a as => rfl
  rw [hne, Bool.false_or, List.all_eq_true] at hcols
  rw [rowErr_eq]
  apply firstSome_schema_none
  · intro c p hp
    rw [tokenize_ok_rows file t htok row hrow]
    exact position_build_lt _ _ _ hp
  · intro x hx
    exact position_of_namesColumn _ _ (hcols _ (mem_mapperColumns_of_mem_schema x hx))
  · intro x hx hk
    have := (List.all_eq_true.mp hnum) row hrow
    unfold numericCellsOk at this
    exact (List.all_eq_true.mp this) _ (mem_numberColumns_of_mem_schema x hx hk)

end d2datadict

/-! ## The claims -/

namespace d2datadict

open d2common d2enum

/-- C1, counterexample. `numericOnlyTable` is a header followed by one data row of matching
column count; its columns are exactly those the mapper reads with `Number` and every cell
is a parseable number; yet the load fails, with `MissingColumn "Name"`, because the header
lacks the columns the mapper reads with `String`. -/
theorem numericOnlyTable_load_fails :
    (match tokenize numericOnlyTable with
      | .ok t =>
        t.header == numberColumns && t.rows.length == 1 &&
          t.rows.all fun r => r.length == t.header.length && r.all fun s => (parseInt s).isSome
      | .error _ => false) = true ∧
    (LoadAutoMagicRecords numericOnlyTable staleGlobals).map (fun out => out.panicked) =
      some (some (.MissingColumn "Name")) := by
  constructor <;> decide!

/-- C1, amended. For every input that tokenizes into a table (a header followed by `n ≥ 0`
data rows of matching column count) whose header names, in any letter case, every column
the mapper reads (needed only when `n ≥ 1`) and whose cells in the integer columns are
empty or base-10 integers that fit Go's `int`, `LoadAutoMagicRecords` returns without
panicking and leaves in
`AutoMagic` exactly `n` records, the `i`-th decoded from the `i`-th data row, whatever
`AutoMagic` held before; a header-only input gives the empty collection. -/
theorem LoadAutoMagicRecords_wellFormed (file : String) (g : Globals) (t : Table)
    (htok : tokenize file = .ok t)
    (hcols : (t.rows.isEmpty || mapperColumns.all (namesColumn t.header)) = true)
    (hnum : t.rows.all (numericCellsOk (ColumnIndex.build t.header)) = true) :
    LoadAutoMagicRecords file g =
      some { globals :=
               { AutoMagic := t.rows.map (decodeRow (ColumnIndex.build t.header)),
                 logged := g.logged ++ [("Loaded %d AutoMagic records", t.rows.length)] },
             panicked := none } ∧
    (t.rows.map (decodeRow (ColumnIndex.build t.header))).length = t.rows.length ∧
    (t.rows = [] →
      LoadAutoMagicRecords file g =
        some { globals :=
                 { AutoMagic := [],
                   logged := g.logged ++ [("Loaded %d AutoMagic records", 0)] },
               panicked := none }) := by
  have herr := tableErr_wellFormed file t htok hcols hnum
  have hload := load_of_tokenize_ok file g t htok
  rw [herr] at hload
  refine ⟨?_, by simp, ?_⟩
  · rw [hload]
    simp [finish]
  · intro hr
    rw [hload, hr]
    rfl

/-- C1, witness: the two-row table, loaded over stale globals. A cell one beyond the
greatest `int` is not among the cells the hypothesis admits. -/
theorem LoadAutoMagicRecords_wellFormed_witness :
    numericCellsOk (ColumnIndex.build ["version"]) ["9223372036854775808"] = false ∧
    numericCellsOk (ColumnIndex.build ["version"]) ["9223372036854775807"] = true ∧
    tokenize twoRowTable = .ok twoRowTableTokens ∧
    (twoRowTableTokens.rows.isEmpty ||
      mapperColumns.all (namesColumn twoRowTableTokens.header)) = true ∧
    twoRowTableTokens.rows.all
      (numericCellsOk (ColumnIndex.build twoRowTableTokens.header)) = true ∧
    LoadAutoMagicRecords twoRowTable staleGlobals =
      some { globals :=
               { AutoMagic :=
                   twoRowTableTokens.rows.map
                     (decodeRow (ColumnIndex.build twoRowTableTokens.header)),
                 logged :=
                   staleGlobals.logged ++
                     [("Loaded %d AutoMagic records", twoRowTableTokens.rows.length)] },
             panicked := none } :=
  ⟨by decide!, by decide!, by decide!, by decide!, by decide!,
    (LoadAutoMagicRecords_wellFormed twoRowTable staleGlobals twoRowTableTokens
      (by decide!) (by decide!) (by decide!)).1⟩

/-- C2, counterexample. On the empty input `LoadAutoMagicRecords` fails fatally, with the
tokenizer's `StructuralError`, although `LoadDataDictionary` produced no cursor at all: no
row was consumed and no error slot exists that could hold a latched error. -/
theorem empty_input_fails_without_cursor :
    LoadAutoMagicRecords "" staleGlobals =
      some { globals := { AutoMagic := [], logged := staleGlobals.logged },
             panicked := some .StructuralError } ∧
    LoadDataDictionary "" = .error .StructuralError := by
  constructor <;> decide!

/-- C2, amended. For every input from which `LoadDataDictionary` produces a cursor `d`: the
loop consumes every data row (it ends with the cursor exhausted and has appended one record
per row, in order, also after an error was latched: no read interrupts the pass and no row
is skipped), the error slot then holds the first error in row order and read order, and
`LoadAutoMagicRecords` panics if and only if that slot is non-empty, with the slot's error
as the panic value. For every input that `LoadDataDictionary` rejects, the load fails with
the tokenizer's `StructuralError` and no row is read. -/
theorem LoadAutoMagicRecords_panics_iff_latched (file : String) (g : Globals) :
    (∀ d : DataDictionary, LoadDataDictionary file = .ok d →
      ∃ dEnd out,
        forNext (d.rows.length + 1) d [] = some (dEnd, d.rows.map (decodeRow d.lookup)) ∧
        dEnd.pos = d.rows.length + 1 ∧
        dEnd.Err = tableErr d.lookup d.rows ∧
        LoadAutoMagicRecords file g = some out ∧
        out.panicked = dEnd.Err ∧
        (out.panicked ≠ none ↔ dEnd.Err ≠ none) ∧
        out.globals.AutoMagic = d.rows.map (decodeRow d.lookup) ∧
        out.globals.AutoMagic.length = d.rows.length) ∧
    (∀ e : DictError, LoadDataDictionary file = .error e →
      e = .StructuralError ∧
      LoadAutoMagicRecords file g =
        some { globals := { AutoMagic := [], logged := g.logged }, panicked := some e }) := by
  constructor
  · intro d hd
    obtain ⟨t, htok, rfl⟩ := loadDataDictionary_ok file d hd
    refine ⟨_, _, forNext_eq _ _ _ (by simp), rfl, by simp,
      load_of_tokenize_ok file g t htok, ?_, ?_, ?_, ?_⟩
    · simp [finish_panicked]
    · simp [finish_panicked]
    · simp [finish_AutoMagic]
    · simp [finish_AutoMagic]
  · intro e he
    have htok : tokenize file = .error e := by
      unfold LoadDataDictionary at he
      cases ht : tokenize file with
      | error e1 =>
        simp only [ht, Except.error.injEq] at he
        rw [he]
      | ok t => simp [ht] at he
    exact ⟨tokenize_error file e htok, load_of_tokenize_error file g e htok⟩

/-- C2, witness: the first data row of `abcTable` latches a `DecodeError`, the second row is
still read, and the load panics with that first error. -/
theorem LoadAutoMagicRecords_panics_iff_latched_witness :
    LoadDataDictionary abcTable =
      .ok { lookup := ColumnIndex.build abcTableTokens.header, rows := abcTableTokens.rows,
            pos := 0, Err := none } ∧
    (LoadAutoMagicRecords abcTable staleGlobals).map
        (fun out => (out.panicked, out.globals.AutoMagic.length)) =
      some (some (.DecodeError "version" "abc"), 2) ∧
    ∃ dEnd out,
      forNext (abcTableTokens.rows.length + 1)
          { lookup := ColumnIndex.build abcTableTokens.header, rows := abcTableTokens.rows,
            pos := 0, Err := none } [] =
        some (dEnd,
          abcTableTokens.rows.map (decodeRow (ColumnIndex.build abcTableTokens.header))) ∧
      dEnd.pos = abcTableTokens.rows.length + 1 ∧
      dEnd.Err = tableErr (ColumnIndex.build abcTableTokens.header) abcTableTokens.rows ∧
      LoadAutoMagicRecords abcTable staleGlobals = some out ∧
      out.panicked = dEnd.Err ∧
      (out.panicked ≠ none ↔ dEnd.Err ≠ none) ∧
      out.globals.AutoMagic =
        abcTableTokens.rows.map (decodeRow (ColumnIndex.build abcTableTokens.header)) ∧
      out.globals.AutoMagic.length = abcTableTokens.rows.length :=
  ⟨by decide!, by decide!,
    (LoadAutoMagicRecords_panics_iff_latched abcTable staleGlobals).1
      { lookup := ColumnIndex.build abcTableTokens.header, rows := abcTableTokens.rows,
        pos := 0, Err := none } (by decide!)⟩

/-- C3. For every input in which some data row's column count differs from the header's,
`LoadAutoMagicRecords` fails with a `StructuralError` and leaves `AutoMagic` empty, whatever
it held before and however many sound rows precede the bad one; nothing is logged. -/
theorem LoadAutoMagicRecords_ragged (file : String) (g : Globals)
    (hbad : hasRaggedRow file = true) :
    LoadAutoMagicRecords file g =
      some { globals := { AutoMagic := [], logged := g.logged },
             panicked := some .StructuralError } := by
  apply load_of_tokenize_error
  unfold hasRaggedRow at hbad
  cases hl : lines file with
  | nil => simp [hl] at hbad
  | cons h rs =>
    simp only [hl, List.any_eq_true, bne_iff_ne] at hbad
    exact tokenize_bad_row file h rs hl hbad

/-- C3, witness: in `raggedTable` a sound row precedes a row of two columns; the load over
stale globals fails and leaves no record. -/
theorem LoadAutoMagicRecords_ragged_witness :
    hasRaggedRow raggedTable = true ∧
    LoadAutoMagicRecords raggedTable staleGlobals =
      some { globals := { AutoMagic := [], logged := staleGlobals.logged },
             panicked := some .StructuralError } :=
  ⟨by decide!, LoadAutoMagicRecords_ragged raggedTable staleGlobals (by decide!)⟩

/-- C9. Every call returns an outcome. When it did not panic, exactly one entry was added to
the log, carrying the number of records in `AutoMagic`, which is the number of data rows
(the lines of the input less the header); when it panicked, the log is unchanged. -/
theorem LoadAutoMagicRecords_logs_count (file : String) (g : Globals) :
    ∃ out, LoadAutoMagicRecords file g = some out ∧
      (out.panicked = none →
        out.globals.logged =
          g.logged ++ [("Loaded %d AutoMagic records", out.globals.AutoMagic.length)] ∧
        out.globals.AutoMagic.length + 1 = (lines file).length) ∧
      (out.panicked ≠ none → out.globals.logged = g.logged) := by
  cases htok : tokenize file with
  | error e =>
    refine ⟨_, load_of_tokenize_error file g e htok, ?_, ?_⟩
    · intro h
      simp at h
    · intro _
      rfl
  | ok t =>
    refine ⟨_, load_of_tokenize_ok file g t htok, ?_, ?_⟩
    · intro h
      cases herr : tableErr (ColumnIndex.build t.header) t.rows with
      | some e => simp [finish, herr] at h
      | none =>
        simp only [finish, List.length_map]
        exact ⟨trivial, tokenize_ok_lines file t htok⟩
    · intro h
      cases herr : tableErr (ColumnIndex.build t.header) t.rows with
      | some e => simp [finish]
      | none => simp [finish, herr] at h

/-- C9, witness: the one-row table logs the count 1 after the stale entry; the table with
an unparseable cell panics and logs nothing. -/
theorem LoadAutoMagicRecords_logs_count_witness :
    (LoadAutoMagicRecords fooTable staleGlobals).map
        (fun out => (out.panicked, out.globals.logged)) =
      some (none, [("Loaded %d AutoMagic records", 1), ("Loaded %d AutoMagic records", 1)]) ∧
    (LoadAutoMagicRecords abcTable staleGlobals).map
        (fun out => (out.panicked, out.globals.logged)) =
      some (some (.DecodeError "version" "abc"), [("Loaded %d AutoMagic records", 1)]) ∧
    ∃ out, LoadAutoMagicRecords fooTable staleGlobals = some out ∧
      (out.panicked = none →
        out.globals.logged =
          staleGlobals.logged ++
            [("Loaded %d AutoMagic records", out.globals.AutoMagic.length)] ∧
        out.globals.AutoMagic.length + 1 = (lines fooTable).length) ∧
      (out.panicked ≠ none → out.globals.logged = staleGlobals.logged) :=
  ⟨by decide!, by decide!, LoadAutoMagicRecords_logs_count fooTable staleGlobals⟩

/-- C10. For every cursor position the record built by lines 145 to 196 is the column
mapping of the claim (each field the typed read of its one column, slot `k` from the column
numbered `k`), evaluated on that same position. Hence for every input from which
`LoadDataDictionary` produces a cursor, the `i`-th record of `AutoMagic` is that mapping
applied to the `i`-th data row and to no other row. -/
theorem LoadAutoMagicRecords_column_mapping (file : String) (g : Globals)
    (d : DataDictionary) (hd : LoadDataDictionary file = .ok d) :
    (∀ d1 : DataDictionary, (readRecord d1).1 = columnMapping d1) ∧
    ∃ out, LoadAutoMagicRecords file g = some out ∧
      out.globals.AutoMagic = d.rows.map (fun row => columnMapping (onRow d.lookup row)) ∧
      ∀ i row, d.rows.get? i = some row →
        out.globals.AutoMagic.get? i = some (columnMapping (onRow d.lookup row)) := by
  obtain ⟨t, htok, rfl⟩ := loadDataDictionary_ok file d hd
  have hmap : t.rows.map (decodeRow (ColumnIndex.build t.header)) =
      t.rows.map (fun row => columnMapping (onRow (ColumnIndex.build t.header) row)) := by
    apply List.map_congr_left
    intro row _
    exact readRecord_fst _
  have hrec : (finish g (t.rows.map (decodeRow (ColumnIndex.build t.header)))
      (tableErr (ColumnIndex.build t.header) t.rows)).globals.AutoMagic =
      t.rows.map (fun row => columnMapping (onRow (ColumnIndex.build t.header) row)) := by
    rw [← hmap]
    cases tableErr (ColumnIndex.build t.header) t.rows <;> rfl
  refine ⟨readRecord_fst, _, load_of_tokenize_ok file g t htok, hrec, ?_⟩
  intro i row hi
  rw [hrec]
  simp only [List.get?_eq_getElem?, List.getElem?_map] at hi ⊢
  rw [hi]
  rfl

/-- C10, witness: the one-row table. -/
theorem LoadAutoMagicRecords_column_mapping_witness :
    LoadDataDictionary fooTable =
      .ok { lookup := ColumnIndex.build fooTableTokens.header, rows := fooTableTokens.rows,
            pos := 0, Err := none } ∧
    ∃ out, LoadAutoMagicRecords fooTable staleGlobals = some out ∧
      out.globals.AutoMagic =
        fooTableTokens.rows.map
          (fun row => columnMapping (onRow (ColumnIndex.build fooTableTokens.header) row)) ∧
      ∀ i row, fooTableTokens.rows.get? i = some row →
        out.globals.AutoMagic.get? i =
          some (columnMapping (onRow (ColumnIndex.build fooTableTokens.header) row)) :=
  ⟨by decide!,
    (LoadAutoMagicRecords_column_mapping fooTable staleGlobals
      { lookup := ColumnIndex.build fooTableTokens.header, rows := fooTableTokens.rows,
        pos := 0, Err := none } (by decide!)).2⟩

/-- C4. The class lookup of line 153: the seven codes map to their heroes, every other
string, the empty string included, maps to the none/unspecified hero (the zero value), and
for every cursor position the record's `Class` is that lookup applied to the string read
from column "class". Reading a cell of that column leaves the dictionary, and so its error
slot, untouched whatever the cell holds. -/
theorem Class_is_charCodeMap_lookup (d : DataDictionary) (s : String) :
    mapIndex charCodeMap "ama" = Hero.HeroAmazon ∧
    mapIndex charCodeMap "ass" = Hero.HeroAssassin ∧
    mapIndex charCodeMap "bar" = Hero.HeroBarbarian ∧
    mapIndex charCodeMap "dru" = Hero.HeroDruid ∧
    mapIndex charCodeMap "nec" = Hero.HeroNecromancer ∧
    mapIndex charCodeMap "pal" = Hero.HeroPaladin ∧
    mapIndex charCodeMap "sor" = Hero.HeroSorceress ∧
    mapIndex charCodeMap "" = Hero.HeroNone ∧
    (s ∉ ["ama", "ass", "bar", "dru", "nec", "pal", "sor"] →
      mapIndex charCodeMap s = Hero.HeroNone) ∧
    (readRecord d).1.Class = mapIndex charCodeMap (d.String "class").1 ∧
    (∀ row p, d.record = some row → d.lookup.position "class" = some p →
      row.get? p = some s →
        d.String "class" = (s, d) ∧ (readRecord d).1.Class = mapIndex charCodeMap s) := by
  refine ⟨by decide, by decide, by decide, by decide, by decide, by decide, by decide,
    by decide, ?_, ?_, ?_⟩
  · intro hs
    simp only [List.mem_cons, List.mem_singleton, List.not_mem_nil, or_false, not_or] at hs
    obtain ⟨h1, h2, h3, h4, h5, h6, h7⟩ := hs
    have b1 : (s == "ama") = false := by simpa using h1
    have b2 : (s == "ass") = false := by simpa using h2
    have b3 : (s == "bar") = false := by simpa using h3
    have b4 : (s == "dru") = false := by simpa using h4
    have b5 : (s == "nec") = false := by simpa using h5
    have b6 : (s == "pal") = false := by simpa using h6
    have b7 : (s == "sor") = false := by simpa using h7
    simp only [mapIndex, charCodeMap, List.lookup, b1, b2, b3, b4, b5, b6, b7, Hero.zero,
      Option.getD_none]
  · rw [readRecord_fst]
    rfl
  · intro row p hrow hp hget
    have hstr : d.String "class" = (s, d) := by
      rw [String_eq, hrow, rawRead_resolved d.lookup row "class" s p hp hget]
      simp
    refine ⟨hstr, ?_⟩
    rw [readRecord_fst]
    show mapIndex charCodeMap (d.String "class").1 = _
    rw [hstr]

/-- C4, witness: a row whose class cell is `xyz`. -/
theorem Class_is_charCodeMap_lookup_witness :
    "xyz" ∉ ["ama", "ass", "bar", "dru", "nec", "pal", "sor"] ∧
    mapIndex charCodeMap "xyz" = Hero.HeroNone ∧
    (onRow (ColumnIndex.build ["Name", "class"]) ["Foo", "xyz"]).String "class" =
      ("xyz", onRow (ColumnIndex.build ["Name", "class"]) ["Foo", "xyz"]) ∧
    (readRecord (onRow (ColumnIndex.build ["Name", "class"]) ["Foo", "xyz"])).1.Class =
      mapIndex charCodeMap "xyz" :=
  ⟨by decide,
    (Class_is_charCodeMap_lookup
      (onRow (ColumnIndex.build ["Name", "class"]) ["Foo", "xyz"]) "xyz").2.2.2.2.2.2.2.2.1
      (by decide),
    (Class_is_charCodeMap_lookup
      (onRow (ColumnIndex.build ["Name", "class"]) ["Foo", "xyz"]) "xyz").2.2.2.2.2.2.2.2.2.2
      ["Foo", "xyz"] 1 (by decide) (by decide) (by decide)⟩

/-- C5. For every cursor position the three boolean fields are "integer > 0" of their
columns: `Spawnable` of "spawnable", `SpawnOnRare` of "rare", `Transform` of "transform".
And on a row whose cell in an integer column is `s`, the integer read is positive exactly
when `s` is a base-10 integer greater than 0 that fits Go's `int`, and is 0 when `s` is
empty: so 0, an empty cell and negative values give `false`, every positive value gives
`true`. -/
theorem boolean_fields_are_positive (d : DataDictionary) :
    (readRecord d).1.Spawnable = decide ((d.Number "spawnable").1 > 0) ∧
    (readRecord d).1.SpawnOnRare = decide ((d.Number "rare").1 > 0) ∧
    (readRecord d).1.Transform = decide ((d.Number "transform").1 > 0) ∧
    ∀ (c : String) (row : List String) (p : Nat) (s : String),
      d.record = some row → d.lookup.position c = some p → row.get? p = some s →
        ((d.Number c).1 > 0 ↔ ∃ n, parseInt s = some n ∧ n > 0) ∧
        (s = "" → (d.Number c).1 = 0) := by
  refine ⟨by rw [readRecord_fst]; rfl, by rw [readRecord_fst]; rfl,
    by rw [readRecord_fst]; rfl, ?_⟩
  intro c row p s hrow hp hget
  rw [Number_eq, hrow]
  by_cases he : s = ""
  · subst he
    rw [numRead_empty d.lookup row c p hp hget]
    simp [parseInt_empty]
  · cases hn : parseInt s with
    | some n =>
      rw [numRead_parsed d.lookup row c s p n hp hget he hn]
      simp [he]
    | none =>
      rw [numRead_unparsed d.lookup row c s p hp hget he hn]
      simp [he]

/-- C5, witness: cells `2`, empty and `-1`. -/
theorem boolean_fields_are_positive_witness :
    (readRecord (onRow (ColumnIndex.build ["spawnable", "rare", "transform"])
      ["2", "", "-1"])).1.Spawnable = true ∧
    (readRecord (onRow (ColumnIndex.build ["spawnable", "rare", "transform"])
      ["2", "", "-1"])).1.SpawnOnRare = false ∧
    (readRecord (onRow (ColumnIndex.build ["spawnable", "rare", "transform"])
      ["2", "", "-1"])).1.Transform = false ∧
    (((onRow (ColumnIndex.build ["spawnable", "rare", "transform"])
      ["2", "", "-1"]).Number "spawnable").1 > 0 ↔ ∃ n, parseInt "2" = some n ∧ n > 0) :=
  ⟨by decide, by decide, by decide,
    ((boolean_fields_are_positive
      (onRow (ColumnIndex.build ["spawnable", "rare", "transform"]) ["2", "", "-1"])).2.2.2
      "spawnable" ["2", "", "-1"] 0 "2" (by decide) (by decide) (by decide)).1⟩

/-- C6. Let `c` be a column the mapper reads with `Number` and that the header has, at
position `p`. On every cursor over the table positioned on a row, an empty cell in that
column reads as 0 and a cell `5` as 5, both leaving the dictionary as it was, and a cell
`abc` reads as the zero value and latches a `DecodeError`. The load stores what was read:
for the `i`-th data row, the `i`-th record of `AutoMagic` holds 0 in the place of column `c`
when the row's cell is empty, 5 when it is `5` (for "version" the field `Version`), and
when it is `abc` the load panics and logs nothing. A table whose header names every column
and whose integer cells are all empty or numeric loads without panic, one record per row. -/
theorem Number_decodes_cells (file : String) (g : Globals) (t : Table) (c : String) (p : Nat)
    (htok : tokenize file = .ok t) (hc : c ∈ numberColumns)
    (hp : (ColumnIndex.build t.header).position c = some p) :
    (∀ (d : DataDictionary) (row : List String),
      d.lookup = ColumnIndex.build t.header → d.record = some row →
        (row.get? p = some "" → d.Number c = (0, d)) ∧
        (row.get? p = some "5" → d.Number c = (5, d)) ∧
        (row.get? p = some "abc" → d.Number c = (0, d.latch (.DecodeError c "abc")))) ∧
    (∀ (i : Nat) (row : List String), t.rows.get? i = some row →
      ∃ out r, LoadAutoMagicRecords file g = some out ∧
        out.globals.AutoMagic.get? i = some r ∧
        (row.get? p = some "" → storesNumber c r 0 = true) ∧
        (row.get? p = some "5" → storesNumber c r 5 = true) ∧
        (row.get? p = some "abc" →
          storesNumber c r 0 = true ∧
          ∃ e, out.panicked = some e ∧ out.globals.logged = g.logged)) ∧
    ((t.rows.isEmpty || mapperColumns.all (namesColumn t.header)) = true →
      t.rows.all (numericCellsOk (ColumnIndex.build t.header)) = true →
        ∃ out, LoadAutoMagicRecords file g = some out ∧ out.panicked = none ∧
          out.globals.AutoMagic = t.rows.map (decodeRow (ColumnIndex.build t.header)) ∧
          out.globals.logged =
            g.logged ++ [("Loaded %d AutoMagic records", t.rows.length)]) := by
  have hcell : ∀ (d : DataDictionary) (row : List String),
      d.lookup = ColumnIndex.build t.header → d.record = some row →
        (row.get? p = some "" → d.Number c = (0, d)) ∧
        (row.get? p = some "5" → d.Number c = (5, d)) ∧
        (row.get? p = some "abc" → d.Number c = (0, d.latch (.DecodeError c "abc"))) := by
    intro d row hl hrow
    rw [← hl] at hp
    refine ⟨?_, ?_, ?_⟩
    · intro hget
      rw [Number_eq, hrow, numRead_empty d.lookup row c p hp hget]
      simp
    · intro hget
      rw [Number_eq, hrow,
        numRead_parsed d.lookup row c "5" p 5 hp hget (by decide) (by decide)]
      simp
    · intro hget
      rw [Number_eq, hrow,
        numRead_unparsed d.lookup row c "abc" p hp hget (by decide) (by decide),
        latch_eq_orErr]
  refine ⟨hcell, ?_, ?_⟩
  · intro i row hi
    have hstore := storesNumber_columnMapping c hc (onRow (ColumnIndex.build t.header) row)
    have hcases := hcell (onRow (ColumnIndex.build t.header) row) row rfl rfl
    refine ⟨_, columnMapping (onRow (ColumnIndex.build t.header) row),
      load_of_tokenize_ok file g t htok, ?_, ?_, ?_, ?_⟩
    · rw [finish_AutoMagic]
      simp only [List.get?_eq_getElem?, List.getElem?_map] at hi ⊢
      rw [hi]
      simp only [Option.map_some', decodeRow, readRecord_fst]
    · intro hget
      rw [hcases.1 hget] at hstore
      exact hstore
    · intro hget
      rw [hcases.2.1 hget] at hstore
      exact hstore
    · intro hget
      refine ⟨?_, ?_⟩
      · rw [hcases.2.2 hget] at hstore
        exact hstore
      · have hrow : row ∈ t.rows := List.get?_mem hi
        have hread : readError (ColumnIndex.build t.header) (some row) (true, c) =
            some (.DecodeError c "abc") := by
          simp only [readError,
            numRead_unparsed _ row c "abc" p hp hget (by decide) (by decide)]
        have hmem : some (DictError.DecodeError c "abc") ∈
            schema.map (readError (ColumnIndex.build t.header) (some row)) := by
          rw [← hread]
          exact List.mem_map_of_mem _ (mem_schema_of_mem_numberColumns c hc)
        obtain ⟨e0, he0⟩ := firstSome_ne_none _ _ hmem
        rw [← rowErr_eq] at he0
        obtain ⟨e1, he1⟩ := tableErr_ne_none _ _ row e0 hrow he0
        refine ⟨e1, ?_, ?_⟩
        · rw [finish_panicked, he1]
        · rw [he1]
          rfl
  · intro hcols hnum
    have herr := tableErr_wellFormed file t htok hcols hnum
    refine ⟨_, load_of_tokenize_ok file g t htok, ?_, ?_, ?_⟩
    · rw [finish_panicked, herr]
    · rw [finish_AutoMagic]
    · rw [herr]
      simp [finish]

/-- C6, witness: `emptyFiveTable` has an empty `version` cell in its first row and `5` in
its second and loads with `Version` 0 and 5; in `abcTable` the `version` cell of the first
row is `abc`, the read latches the `DecodeError` and the load panics. -/
theorem Number_decodes_cells_witness :
    (LoadAutoMagicRecords emptyFiveTable staleGlobals).map
        (fun out => (out.panicked, out.globals.AutoMagic.map fun r => r.Version)) =
      some (none, [0, 5]) ∧
    (LoadAutoMagicRecords abcTable staleGlobals).map
        (fun out => (out.panicked, out.globals.AutoMagic.map fun r => r.Version)) =
      some (some (.DecodeError "version" "abc"), [0, 100]) ∧
    tokenize emptyFiveTable = .ok emptyFiveTableTokens ∧ "version" ∈ numberColumns ∧
    (ColumnIndex.build emptyFiveTableTokens.header).position "version" = some 1 ∧
    (∃ out r, LoadAutoMagicRecords emptyFiveTable staleGlobals = some out ∧
      out.globals.AutoMagic.get? 1 = some r ∧ storesNumber "version" r 5 = true) ∧
    (∃ out, LoadAutoMagicRecords emptyFiveTable staleGlobals = some out ∧
      out.panicked = none) ∧
    (onRow (ColumnIndex.build abcTableTokens.header) (columns abcRow.data)).Number "version" =
      (0, (onRow (ColumnIndex.build abcTableTokens.header) (columns abcRow.data)).latch
        (.DecodeError "version" "abc")) ∧
    ∃ out r, LoadAutoMagicRecords abcTable staleGlobals = some out ∧
      out.globals.AutoMagic.get? 0 = some r ∧ storesNumber "version" r 0 = true ∧
      ∃ e, out.panicked = some e ∧ out.globals.logged = staleGlobals.logged :=
  ⟨by decide!, by decide!, by decide!, by decide!, by decide!,
    (let h := (Number_decodes_cells emptyFiveTable staleGlobals emptyFiveTableTokens
        "version" 1 (by decide!) (by decide!) (by decide!)).2.1 1
        (columns fiveVersionRow.data) (by decide!)
     match h with
     | ⟨out, r, h1, h2, _, h5, _⟩ => ⟨out, r, h1, h2, h5 (by decide!)⟩),
    (match (Number_decodes_cells emptyFiveTable staleGlobals emptyFiveTableTokens
        "version" 1 (by decide!) (by decide!) (by decide!)).2.2 (by decide!) (by decide!) with
     | ⟨out, h1, h2, _⟩ => ⟨out, h1, h2⟩),
    ((Number_decodes_cells abcTable staleGlobals abcTableTokens "version" 1
      (by decide!) (by decide!) (by decide!)).1
      (onRow (ColumnIndex.build abcTableTokens.header) (columns abcRow.data))
      (columns abcRow.data) rfl rfl).2.2 (by decide!),
    (match (Number_decodes_cells abcTable staleGlobals abcTableTokens "version" 1
        (by decide!) (by decide!) (by decide!)).2.1 0 (columns abcRow.data) (by decide!) with
     | ⟨out, r, h1, h2, _, _, h3⟩ => ⟨out, r, h1, h2, (h3 (by decide!)).1, (h3 (by decide!)).2⟩)⟩

/-- C7, counterexample. The table of the spec's example, with the header `name`, `version`,
`spawnable` and the single data row `Foo`, `100`, `1`, does not load: the read of column
"rare" latches `MissingColumn`, the call panics with it and logs no count. -/
theorem bareTable_load_panics :
    tokenize bareTable =
      .ok { header := ["name", "version", "spawnable"], rows := [["Foo", "100", "1"]] } ∧
    (LoadAutoMagicRecords bareTable staleGlobals).map
        (fun out => (out.panicked, out.globals.logged)) =
      some (some (.MissingColumn "rare"), staleGlobals.logged) := by
  constructor <;> decide!

/-- C7, amended. For every table with a single data row whose header names, in any letter
case, every column the mapper reads, spells the columns `name`, `version` and `spawnable`
in lowercase, and whose integer cells are empty or numeric: the load returns without panic,
logs the count 1 and leaves exactly one record, whose `Name` is the cell of column `name`
(although the mapper asks for "Name"), whose `Version` is the integer of the cell of
`version` and whose `Spawnable` tells whether the integer of the cell of `spawnable` is
positive; so `Foo`, `100`, `1` give `Name = "Foo"`, `Version = 100`, `Spawnable = true`.
More generally, for any two inputs with the same data lines whose header lines agree up to
the letter case of the column names, the load ends alike. -/
theorem load_ignores_header_case (g : Globals) :
    (∀ (file : String) (t : Table) (row : List String) (p1 p2 p3 : Nat)
        (name sv sf : String) (v f : Int),
      tokenize file = .ok t → t.rows = [row] →
      mapperColumns.all (namesColumn t.header) = true →
      numericCellsOk (ColumnIndex.build t.header) row = true →
      namedAt t.header "name" p1 = true → row.get? p1 = some name →
      namedAt t.header "version" p2 = true → row.get? p2 = some sv → parseInt sv = some v →
      namedAt t.header "spawnable" p3 = true → row.get? p3 = some sf → parseInt sf = some f →
        ∃ r, LoadAutoMagicRecords file g =
            some { globals :=
                     { AutoMagic := [r],
                       logged := g.logged ++ [("Loaded %d AutoMagic records", 1)] },
                   panicked := none } ∧
          r = decodeRow (ColumnIndex.build t.header) row ∧
          r.Name = name ∧ r.Version = v ∧ r.Spawnable = decide (f > 0)) ∧
    (∀ (file1 file2 : String) (h1 h2 : List Char) (rs : List (List Char)),
      lines file1 = h1 :: rs → lines file2 = h2 :: rs →
      (columns h1).map normalize = (columns h2).map normalize →
        LoadAutoMagicRecords file1 g = LoadAutoMagicRecords file2 g) := by
  constructor
  · intro file t row p1 p2 p3 name sv sf v f htok hrows hcols hnum h1 hv1 h2 hv2 hpv h3 hv3
      hpf
    have hp1 : (ColumnIndex.build t.header).position "Name" = some p1 :=
      position_of_namedAt t.header "name" "Name" p1 h1 (by decide)
    have hp2 : (ColumnIndex.build t.header).position "version" = some p2 :=
      position_of_namedAt t.header "version" "version" p2 h2 rfl
    have hp3 : (ColumnIndex.build t.header).position "spawnable" = some p3 :=
      position_of_namedAt t.header "spawnable" "spawnable" p3 h3 rfl
    have hsv : sv ≠ "" := by
      intro h
      rw [h, parseInt_empty] at hpv
      simp at hpv
    have hsf : sf ≠ "" := by
      intro h
      rw [h, parseInt_empty] at hpf
      simp at hpf
    have herr : tableErr (ColumnIndex.build t.header) t.rows = none := by
      apply tableErr_wellFormed file t htok
      · rw [hcols]
        simp
      · rw [hrows]
        simp [hnum]
    have hdec : decodeRow (ColumnIndex.build t.header) row =
        columnMapping (onRow (ColumnIndex.build t.header) row) := readRecord_fst _
    refine ⟨decodeRow (ColumnIndex.build t.header) row, ?_, rfl, ?_, ?_, ?_⟩
    · rw [load_of_tokenize_ok file g t htok, herr, hrows]
      rfl
    · rw [hdec]
      show ((onRow (ColumnIndex.build t.header) row).String "Name").1 = name
      rw [String_eq, onRow_lookup, onRow_record, rawRead_resolved _ row "Name" name p1 hp1 hv1]
    · rw [hdec]
      show ((onRow (ColumnIndex.build t.header) row).Number "version").1 = v
      rw [Number_eq, onRow_lookup, onRow_record,
        numRead_parsed _ row "version" sv p2 v hp2 hv2 hsv hpv]
    · rw [hdec]
      show decide (((onRow (ColumnIndex.build t.header) row).Number "spawnable").1 > 0) = _
      rw [Number_eq, onRow_lookup, onRow_record,
        numRead_parsed _ row "spawnable" sf p3 f hp3 hv3 hsf hpf]
  · intro file1 file2 h1 h2 rs hl1 hl2 hhead
    have hlen : (columns h1).length = (columns h2).length := by
      have := congrArg List.length hhead
      simpa using this
    by_cases hall : (rs.map columns).all (fun r => r.length == (columns h1).length) = true
    · have ht1 : tokenize file1 = .ok { header := columns h1, rows := rs.map columns } := by
        unfold tokenize
        simp only [hl1, hall, if_true]
      have ht2 : tokenize file2 = .ok { header := columns h2, rows := rs.map columns } := by
        unfold tokenize
        rw [hlen] at hall
        simp only [hl2, hall, if_true]
      rw [load_of_tokenize_ok file1 g _ ht1, load_of_tokenize_ok file2 g _ ht2,
        build_congr _ _ hhead]
    · have ht1 : tokenize file1 = .error .StructuralError := by
        unfold tokenize
        simp only [hl1, hall]
        rfl
      have ht2 : tokenize file2 = .error .StructuralError := by
        unfold tokenize
        rw [hlen] at hall
        simp only [hl2, hall]
        rfl
      rw [load_of_tokenize_error file1 g _ ht1, load_of_tokenize_error file2 g _ ht2]

/-- C7, witness: the one-row table with an all-lowercase header and `Foo`, `100`, `1`. -/
theorem load_ignores_header_case_witness :
    tokenize fooTable = .ok fooTableTokens ∧
    mapperColumns.all (namesColumn fooTableTokens.header) = true ∧
    namedAt fooTableTokens.header "name" 0 = true ∧
    namedAt fooTableTokens.header "version" 1 = true ∧
    namedAt fooTableTokens.header "spawnable" 2 = true ∧
    ∃ r, LoadAutoMagicRecords fooTable staleGlobals =
        some { globals :=
                 { AutoMagic := [r],
                   logged := staleGlobals.logged ++ [("Loaded %d AutoMagic records", 1)] },
               panicked := none } ∧
      r = decodeRow (ColumnIndex.build fooTableTokens.header) (columns fooRow.data) ∧
      r.Name = "Foo" ∧ r.Version = 100 ∧ r.Spawnable = decide ((1 : Int) > 0) :=
  ⟨by decide!, by decide!, by decide!, by decide!, by decide!,
    (load_ignores_header_case staleGlobals).1 fooTable fooTableTokens (columns fooRow.data)
      0 1 2 "Foo" "100" "1" 100 1 (by decide!) rfl (by decide!) (by decide!) (by decide!)
      (by decide!) (by decide!) (by decide!) (by decide!) (by decide!) (by decide!)
      (by decide!)⟩

/-- C8, counterexample. The header of `headerOnly` omits the column "rare" (and 34 more) that
the mapper reads; yet the load succeeds, with no record and the count 0 logged: with no data
row the mapper never asks for a column. -/
theorem headerOnly_load_succeeds :
    tokenize headerOnly = .ok { header := ["name", "version", "spawnable"], rows := [] } ∧
    firstOmitted ["name", "version", "spawnable"] = some "rare" ∧
    LoadAutoMagicRecords headerOnly staleGlobals =
      some { globals :=
               { AutoMagic := [],
                 logged := staleGlobals.logged ++ [("Loaded %d AutoMagic records", 0)] },
             panicked := none } := by
  refine ⟨?_, ?_, ?_⟩ <;> decide!

/-- C8, amended. For every input that tokenizes into a table with at least one data row and
whose header omits a column the mapper reads, with `c1` the first such column in read
order: `LoadAutoMagicRecords` panics and logs no count, and the panic value is the
`DecodeError` of the first integer cell of the first row that is read before `c1` and fails
to parse, or, when there is no such cell, `MissingColumn c1`; cells read after `c1` and
later rows have no influence. For every input that tokenizes into a header and no data row,
the load succeeds with zero records and the count 0, whatever the header omits. -/
theorem LoadAutoMagicRecords_missing_column (g : Globals) :
    (∀ (file : String) (t : Table) (row : List String) (rest : List (List String))
        (c1 : String),
      tokenize file = .ok t → t.rows = row :: rest → firstOmitted t.header = some c1 →
        c1 ∈ mapperColumns ∧ namesColumn t.header c1 = false ∧
        ∃ out, LoadAutoMagicRecords file g = some out ∧
          out.panicked =
            some ((firstBadCellBefore (ColumnIndex.build t.header) row c1).getD
              (.MissingColumn c1)) ∧
          out.globals.logged = g.logged) ∧
    (∀ (file : String) (t : Table), tokenize file = .ok t → t.rows = [] →
      LoadAutoMagicRecords file g =
        some { globals :=
                 { AutoMagic := [],
                   logged := g.logged ++ [("Loaded %d AutoMagic records", 0)] },
               panicked := none }) := by
  constructor
  · intro file t row rest c1 htok hrows hmiss
    have hmem : c1 ∈ mapperColumns := List.mem_of_find?_eq_some hmiss
    have hnot : namesColumn t.header c1 = false := by
      have := List.find?_some hmiss
      simpa using this
    have hfun : (fun c => ((ColumnIndex.build t.header).position c).isNone) =
        (fun c => !namesColumn t.header c) := by
      funext c
      exact position_isNone_eq t.header c
    have hfind : (schema.map (fun r => r.2)).find?
        (fun c => ((ColumnIndex.build t.header).position c).isNone) = some c1 := by
      rw [hfun]
      exact hmiss
    have hrow : row ∈ t.rows := by
      rw [hrows]
      exact List.mem_cons_self _ _
    have hin : ∀ c p, (ColumnIndex.build t.header).position c = some p → p < row.length := by
      intro c p hp
      rw [tokenize_ok_rows file t htok row hrow]
      exact position_build_lt _ _ _ hp
    have hkey :=
      firstSome_schema_missing_exact (ColumnIndex.build t.header) row hin schema c1 hfind
    rw [← rowErr_eq] at hkey
    have htab : tableErr (ColumnIndex.build t.header) t.rows =
        some ((firstBadCellBefore (ColumnIndex.build t.header) row c1).getD
          (.MissingColumn c1)) := by
      rw [hrows]
      simp only [tableErr, hkey, firstOf_some]
      rfl
    refine ⟨hmem, hnot, _, load_of_tokenize_ok file g t htok, ?_, ?_⟩
    · rw [finish_panicked, htab]
    · rw [htab]
      rfl
  · intro file t htok hrows
    rw [load_of_tokenize_ok file g t htok, hrows]
    rfl

/-- C8, witness: the three-column table with one data row fails on "rare", the first column
in read order that its header omits; the header alone loads. -/
theorem LoadAutoMagicRecords_missing_column_witness :
    tokenize bareTable =
      .ok { header := ["name", "version", "spawnable"], rows := [["Foo", "100", "1"]] } ∧
    firstOmitted ["name", "version", "spawnable"] = some "rare" ∧
    firstBadCellBefore (ColumnIndex.build ["name", "version", "spawnable"])
      ["Foo", "100", "1"] "rare" = none ∧
    (LoadAutoMagicRecords "name\tversion\tspawnable\nFoo\tabc\t1" staleGlobals).map
        (fun out => out.panicked) =
      some (firstBadCellBefore (ColumnIndex.build ["name", "version", "spawnable"])
        ["Foo", "abc", "1"] "rare") ∧
    firstBadCellBefore (ColumnIndex.build ["name", "version", "spawnable"])
      ["Foo", "abc", "1"] "rare" = some (.DecodeError "version" "abc") ∧
    (LoadAutoMagicRecords "name\tversion\tspawnable\tlevel\nFoo\t100\t1\tx" staleGlobals).map
        (fun out => out.panicked) =
      some (some (.MissingColumn "rare")) ∧
    (∃ out, LoadAutoMagicRecords bareTable staleGlobals = some out ∧
      out.panicked = some (.MissingColumn "rare") ∧
      out.globals.logged = staleGlobals.logged) ∧
    LoadAutoMagicRecords headerOnly staleGlobals =
      some { globals :=
               { AutoMagic := [],
                 logged := staleGlobals.logged ++ [("Loaded %d AutoMagic records", 0)] },
             panicked := none } :=
  ⟨by decide!, by decide!, by decide!, by decide!, by decide!, by decide!,
    ((LoadAutoMagicRecords_missing_column staleGlobals).1 bareTable
      { header := ["name", "version", "spawnable"], rows := [["Foo", "100", "1"]] }
      ["Foo", "100", "1"] [] "rare" (by decide!) rfl (by decide!)).2.2,
    (LoadAutoMagicRecords_missing_column staleGlobals).2 headerOnly
      { header := ["name", "version", "spawnable"], rows := [] } (by decide!) rfl⟩

end d2datadict
